import Mathlib

/-!
Shallow embedding of `mesure/measurement/measurement.py` (class `Device`).

Machine floats are modelled by `ℚ` inside the sweep engine (all arithmetic
there is exact on the inputs the claims use); a small `MFloat` type with an
explicit NaN and signed infinities models the numpy float semantics of
`Device.waiting_time` where non-finite inputs matter.

The instrument collaborators (qcodes QDac / Keysight DMM drivers) are not part
of this repository; they are modelled from the spec as a mock state
(`DevState`) plus an event trace (`List Event`) recording every externally
visible action: channel reads, ramp commands, sleeps, meter reads, emitted
measurement rows, progress-bar updates and connection closes.  Fallible
collaborator calls (the meter read) return `Except Unit ℚ`; a Python
exception travelling up to a decorator is an `Except.error`.
-/

abbrev Chan := Nat

/-- Identity of a registered qcodes parameter: a QDAC channel's `.v`
parameter (`self.qdac.chNN.v`) or the DMM voltage parameter (`self.dmm.volt`). -/
inductive ParamId
| chanV (c : Chan)
| dmmVolt
deriving DecidableEq

/-- One externally visible action of the engine, in program order. -/
inductive Event
| getV (c : Chan) (v : ℚ)
| rampCall (channels : List Chan) (v_startlist v_endlist : List ℚ) (ramptime : ℚ)
| sleep (t : ℚ)
| meterRead (v : ℚ)
| addResult (results : List (Option (ParamId × ℚ)))
| outerUpdate
| innerUpdate
| innerReset
| closeDac
| closeDmm
deriving DecidableEq

/-- Mock instrument state: held channel voltages, open/closed flags of the two
connections, hardware close counters, and the index of the next meter read. -/
structure DevState where
  volt : Chan → ℚ
  dacOpen : Bool
  dmmOpen : Bool
  dacCloses : Nat
  dmmCloses : Nat
  meterIdx : Nat

/-- Configuration of a `Device` object: the constructor arguments that the
sweep methods consult, plus the meter collaborator.  `meter k` is the outcome
of the `k`-th `self.dmm.volt.get()` call (modelled from the spec: the Meter
collaborator's `read() -> float`, which may fail with an InstrumentError). -/
structure DeviceCfg where
  connected_channels : List Chan
  nplc : ℚ
  meter : Nat → Except Unit ℚ

/-- `Device.waiting_time` (measurement.py:109-125) over exact rationals:
`time = np.abs(difference)/slope; if time < 0.002: return 0.002 else: return time`
with `0.002 = 1/500`. -/
def waiting_time (difference : ℚ) (slope : ℚ) : ℚ :=
  let time := |difference| / slope
  if time < 1/500 then 1/500 else time

/-- A machine float that can be NaN or infinite; `fin q` is a finite float
whose exact value is the rational `q`. -/
inductive MFloat
| fin (q : ℚ)
| nan
| inf
| ninf
deriving DecidableEq

/-- IEEE-754 absolute value as computed by `np.abs`. -/
def MFloat.fabs : MFloat → MFloat
| .fin q => .fin |q|
| .nan => .nan
| .inf => .inf
| .ninf => .inf

/-- IEEE-754 division restricted to the shapes `waiting_time` can produce. -/
def MFloat.fdiv : MFloat → MFloat → MFloat
| .nan, _ => .nan
| _, .nan => .nan
| .fin a, .fin b =>
    if b = 0 then (if a = 0 then .nan else if 0 < a then .inf else .ninf)
    else .fin (a / b)
| .fin _, .inf => .fin 0
| .fin _, .ninf => .fin 0
| .inf, .fin b => if b < 0 then .ninf else .inf
| .inf, .inf => .nan
| .inf, .ninf => .nan
| .ninf, .fin b => if b < 0 then .inf else .ninf
| .ninf, .inf => .nan
| .ninf, .ninf => .nan

/-- IEEE-754 `<`: any comparison against NaN is false. -/
def MFloat.flt : MFloat → MFloat → Bool
| .nan, _ => false
| _, .nan => false
| .fin a, .fin b => decide (a < b)
| .fin _, .inf => true
| .fin _, .ninf => false
| .inf, _ => false
| .ninf, .ninf => false
| .ninf, _ => true

def MFloat.isFinite : MFloat → Bool
| .fin _ => true
| _ => false

/-- `Device.waiting_time` over machine floats: the same code as `waiting_time`
but with numpy float semantics, so that the behaviour on NaN and infinite
inputs is visible.  The `slope` default in the source is `1`. -/
def waiting_timeF (difference : MFloat) (slope : MFloat) : MFloat :=
  let time := MFloat.fdiv (MFloat.fabs difference) slope
  if MFloat.flt time (.fin (1/500)) then .fin (1/500) else time

/-- `np.linspace(start, stop, num)` over exact rationals:
`start + i * (stop - start) / (num - 1)` for `i = 0 .. num-1`. -/
def linspace (start stop : ℚ) (num : Nat) : List ℚ :=
  (List.range num).map (fun (i : Nat) => start + (i : ℚ) * ((stop - start) / ((num : ℚ) - 1)))

/-- Apply a list of (channel, target) writes to a voltage assignment, in order. -/
def applyRamp (f : Chan → ℚ) (pairs : List (Chan × ℚ)) : Chan → ℚ :=
  pairs.foldl (fun g p => Function.update g p.1 p.2) f

/-- Modelled from the spec: the VoltageSource ramp collaborator
(`self.qdac.ramp_voltages`, a qcodes driver method not part of this
repository).  Per spec section 6, `ramp(channels, from_values, to_values,
duration) -> elapsed_seconds`: it commands the listed channels from
`v_startlist` to `v_endlist` over the requested `ramptime` and returns the
elapsed duration, which the source then passes to `time.sleep`. -/
def ramp_voltages (s : DevState) (channels : List Chan) (v_startlist v_endlist : List ℚ)
    (ramptime : ℚ) : DevState × List Event × ℚ :=
  ({ s with volt := applyRamp s.volt (channels.zip v_endlist) },
   [Event.rampCall channels v_startlist v_endlist ramptime], ramptime)

/-- Argument that is either a single int / float or a list, mirroring the
`type(channels) == int` dispatch in the source. -/
inductive Arg (α : Type)
| one (a : α)
| many (xs : List α)
deriving DecidableEq

/-- `Device.get_channel_voltage` (measurement.py:142-156): a scalar read for an
`int` argument, an in-order list of reads (loop with `append`) otherwise. -/
def get_channel_voltage (s : DevState) : Arg Chan → List Event × Arg ℚ
| .one c => ([Event.getV c (s.volt c)], Arg.one (s.volt c))
| .many cs => (cs.map (fun c => Event.getV c (s.volt c)), Arg.many (cs.map s.volt))

/-- `Device.set_channel_voltage` (measurement.py:127-140), `int` branch:
read the current voltage, ramp with `waiting_time(voltages - current)`, and
sleep for the duration returned by `ramp_voltages`. -/
def set_channel_voltage_one (s : DevState) (channel : Chan) (voltage : ℚ) :
    DevState × List Event :=
  let current := s.volt channel
  let r := ramp_voltages s [channel] [current] [voltage]
             (waiting_time (voltage - current) 1)
  (r.1, Event.getV channel current :: r.2.1 ++ [Event.sleep r.2.2])

/-- `Device.set_channel_voltage` (measurement.py:127-140), list branch:
read all current voltages, then `max_voltage_difference = 10` (hardcoded in
the source) and one batched ramp with `waiting_time(10)`, then sleep. -/
def set_channel_voltage_many (s : DevState) (channels : List Chan) (voltages : List ℚ) :
    DevState × List Event :=
  let current_voltages := channels.map s.volt
  let max_voltage_difference : ℚ := 10
  let r := ramp_voltages s channels current_voltages voltages
             (waiting_time max_voltage_difference 1)
  (r.1, channels.map (fun c => Event.getV c (s.volt c)) ++ r.2.1 ++ [Event.sleep r.2.2])

/-- `Device.close_connections` (measurement.py:431-442).  Note the source's
second branch sets `self.dac_open = False` again instead of `self.dmm_open`,
which this embedding reproduces faithfully. -/
def close_connections (s : DevState) : DevState × List Event :=
  let p :=
    if s.dacOpen then
      ({ s with dacOpen := false, dacCloses := s.dacCloses + 1 }, [Event.closeDac])
    else (s, ([] : List Event))
  if p.1.dmmOpen then
    ({ p.1 with dacOpen := false, dmmCloses := p.1.dmmCloses + 1 }, p.2 ++ [Event.closeDmm])
  else (p.1, p.2)

/-- `exception_handler_general` (measurement.py:21-51): run the body; on any
exception (or interrupt) print, call `close_connections`, and fall off the end
of the handler, returning `None` to the caller instead of re-raising. -/
def exception_handler_general {α : Type} (body : DevState → DevState × List Event × Except Unit α)
    (s : DevState) : DevState × List Event × Option α :=
  let r := body s
  match r.2.2 with
  | Except.ok a => (r.1, r.2.1, some a)
  | Except.error _ =>
      let c := close_connections r.1
      (c.1, r.2.1 ++ c.2, none)

/-- The parameter-registration loop common to both sweeps
(measurement.py:227-238 and 343-354): for each connected channel, if it is not
being swept, read its held voltage and store `(parameter, value)` at its
position in `results`; swept channels and the trailing meter slot stay `None`. -/
def registration (s : DevState) (connected swept : List Chan) :
    List Event × List (Option (ParamId × ℚ)) :=
  (connected.filterMap (fun c => if c ∈ swept then none else some (Event.getV c (s.volt c))),
   connected.map (fun c => if c ∈ swept then none
                           else some (ParamId.chanV c, s.volt c)) ++ [none])

/-- The measurement loop of `Device.dc_1d_gate_sweep` (measurement.py:362-378):
for each setpoint, set the swept channel, update the outer progress bar, read
the meter (which may raise), overwrite the swept and meter slots of `results`,
and `add_result` the row.  A meter fault propagates as `Except.error`. -/
def sweep1dLoop (meter : Nat → Except Unit ℚ) (ch : Chan) (sweepIdx lastIdx : Nat) :
    List ℚ → List (Option (ParamId × ℚ)) → DevState →
    DevState × List Event × Except Unit Unit
| [], _, s => (s, [], Except.ok ())
| v :: rest, results, s =>
  let p := set_channel_voltage_one s ch v
  match meter p.1.meterIdx with
  | Except.error e => (p.1, p.2 ++ [Event.outerUpdate], Except.error e)
  | Except.ok g =>
    let s2 : DevState := { p.1 with meterIdx := p.1.meterIdx + 1 }
    let results2 := (results.set sweepIdx (some (ParamId.chanV ch, v))).set lastIdx
                      (some (ParamId.dmmVolt, g))
    let q := sweep1dLoop meter ch sweepIdx lastIdx rest results2 s2
    (q.1, p.2 ++ [Event.outerUpdate, Event.meterRead g, Event.addResult results2] ++ q.2.1,
     q.2.2)

/-- Body of `Device.dc_1d_gate_sweep` (measurement.py:292-393), inside the
decorator: the `assert sweep_channel in connected_channels` (an AssertionError
when it fails, modelled as `Except.error`), setpoint generation with
`np.linspace`, parameter registration, the measurement loop, and on normal
completion the batched ramp of every connected channel to `0.0`. -/
def dc_1d_body (cfg : DeviceCfg) (sweep_channel : Chan) (min_voltage max_voltage : ℚ)
    (number_of_steps : Nat) (s : DevState) : DevState × List Event × Except Unit Unit :=
  if sweep_channel ∈ cfg.connected_channels then
    let voltages_sweep := linspace min_voltage max_voltage number_of_steps
    let reg := registration s cfg.connected_channels [sweep_channel]
    let sweep_index := cfg.connected_channels.indexOf sweep_channel
    let last_index := cfg.connected_channels.length
    let r := sweep1dLoop cfg.meter sweep_channel sweep_index last_index voltages_sweep reg.2 s
    match r.2.2 with
    | Except.error e => (r.1, reg.1 ++ r.2.1, Except.error e)
    | Except.ok _ =>
      let td := set_channel_voltage_many r.1 cfg.connected_channels
                  (List.replicate cfg.connected_channels.length 0)
      (td.1, reg.1 ++ r.2.1 ++ td.2, Except.ok ())
  else (s, [], Except.error ())

/-- `Device.dc_1d_gate_sweep` as seen by its caller: the body wrapped in
`@exception_handler_general`. -/
def dc_1d_gate_sweep (cfg : DeviceCfg) (sweep_channel : Chan) (min_voltage max_voltage : ℚ)
    (number_of_steps : Nat) (s : DevState) : DevState × List Event × Option Unit :=
  exception_handler_general (dc_1d_body cfg sweep_channel min_voltage max_voltage number_of_steps) s

/-- The inner measurement loop of `Device.dc_2d_gate_sweep`
(measurement.py:260-276): set the inner channel, update the inner progress
bar, overwrite the inner slot of `results`, sleep `3 * int_time`, read the
meter, overwrite the meter slot, and `add_result` the row. -/
def sweep2dInnerLoop (meter : Nat → Except Unit ℚ) (int_time : ℚ) (ch2 : Chan)
    (ch2Idx lastIdx : Nat) :
    List ℚ → List (Option (ParamId × ℚ)) → DevState →
    DevState × List Event × Except Unit (List (Option (ParamId × ℚ)))
| [], results, s => (s, [], Except.ok results)
| v :: rest, results, s =>
  let p := set_channel_voltage_one s ch2 v
  let results1 := results.set ch2Idx (some (ParamId.chanV ch2, v))
  match meter p.1.meterIdx with
  | Except.error e =>
      (p.1, p.2 ++ [Event.innerUpdate, Event.sleep (3 * int_time)], Except.error e)
  | Except.ok g =>
    let s2 : DevState := { p.1 with meterIdx := p.1.meterIdx + 1 }
    let results2 := results1.set lastIdx (some (ParamId.dmmVolt, g))
    let q := sweep2dInnerLoop meter int_time ch2 ch2Idx lastIdx rest results2 s2
    (q.1,
     p.2 ++ [Event.innerUpdate, Event.sleep (3 * int_time), Event.meterRead g,
             Event.addResult results2] ++ q.2.1,
     q.2.2)

/-- The outer loop of `Device.dc_2d_gate_sweep` (measurement.py:252-276): for
each outer setpoint, set the outer channel, update the outer progress bar,
reset the inner progress bar, overwrite the outer slot of `results`, then run
the full inner loop. -/
def sweep2dOuterLoop (meter : Nat → Except Unit ℚ) (int_time : ℚ) (ch1 ch2 : Chan)
    (ch1Idx ch2Idx lastIdx : Nat) (voltages_ch2 : List ℚ) :
    List ℚ → List (Option (ParamId × ℚ)) → DevState →
    DevState × List Event × Except Unit (List (Option (ParamId × ℚ)))
| [], results, s => (s, [], Except.ok results)
| v1 :: rest, results, s =>
  let p := set_channel_voltage_one s ch1 v1
  let results1 := results.set ch1Idx (some (ParamId.chanV ch1, v1))
  let q := sweep2dInnerLoop meter int_time ch2 ch2Idx lastIdx voltages_ch2 results1 p.1
  match q.2.2 with
  | Except.error e =>
      (q.1, p.2 ++ [Event.outerUpdate, Event.innerReset] ++ q.2.1, Except.error e)
  | Except.ok results2 =>
    let w := sweep2dOuterLoop meter int_time ch1 ch2 ch1Idx ch2Idx lastIdx voltages_ch2
               rest results2 q.1
    (w.1, p.2 ++ [Event.outerUpdate, Event.innerReset] ++ q.2.1 ++ w.2.1, w.2.2)

/-- Body of `Device.dc_2d_gate_sweep` (measurement.py:166-290), inside the
decorator: the two-channel membership assert, `int_time = NPLC / 50`, setpoint
generation, registration (skipping both swept channels), the nested loops, and
on normal completion the batched ramp of every connected channel to `0.0`. -/
def dc_2d_body (cfg : DeviceCfg) (channel_number_1 channel_number_2 : Chan)
    (min_voltage_ch1 max_voltage_ch1 min_voltage_ch2 max_voltage_ch2 : ℚ)
    (number_of_steps_ch1 number_of_steps_ch2 : Nat) (s : DevState) :
    DevState × List Event × Except Unit Unit :=
  if channel_number_1 ∈ cfg.connected_channels ∧ channel_number_2 ∈ cfg.connected_channels then
    let int_time := cfg.nplc / 50
    let voltages_ch1 := linspace min_voltage_ch1 max_voltage_ch1 number_of_steps_ch1
    let voltages_ch2 := linspace min_voltage_ch2 max_voltage_ch2 number_of_steps_ch2
    let reg := registration s cfg.connected_channels [channel_number_1, channel_number_2]
    let ch1_index := cfg.connected_channels.indexOf channel_number_1
    let ch2_index := cfg.connected_channels.indexOf channel_number_2
    let last_index := cfg.connected_channels.length
    let r := sweep2dOuterLoop cfg.meter int_time channel_number_1 channel_number_2
               ch1_index ch2_index last_index voltages_ch2 voltages_ch1 reg.2 s
    match r.2.2 with
    | Except.error e => (r.1, reg.1 ++ r.2.1, Except.error e)
    | Except.ok _ =>
      let td := set_channel_voltage_many r.1 cfg.connected_channels
                  (List.replicate cfg.connected_channels.length 0)
      (td.1, reg.1 ++ r.2.1 ++ td.2, Except.ok ())
  else (s, [], Except.error ())

/-- `Device.dc_2d_gate_sweep` as seen by its caller: the body wrapped in
`@exception_handler_general`. -/
def dc_2d_gate_sweep (cfg : DeviceCfg) (channel_number_1 channel_number_2 : Chan)
    (min_voltage_ch1 max_voltage_ch1 min_voltage_ch2 max_voltage_ch2 : ℚ)
    (number_of_steps_ch1 number_of_steps_ch2 : Nat) (s : DevState) :
    DevState × List Event × Option Unit :=
  exception_handler_general
    (dc_2d_body cfg channel_number_1 channel_number_2 min_voltage_ch1 max_voltage_ch1
      min_voltage_ch2 max_voltage_ch2 number_of_steps_ch1 number_of_steps_ch2) s

/-- The measurement rows passed to `datasaver.add_result`, in emission order. -/
def emittedSamples (events : List Event) : List (List (Option (ParamId × ℚ))) :=
  events.filterMap (fun e => match e with | Event.addResult r => some r | _ => none)

/-- Progress-bar events (tqdm `update` / `reset` calls). -/
def isProgressEvent : Event → Bool
| Event.outerUpdate => true
| Event.innerUpdate => true
| Event.innerReset => true
| _ => false

/-- The subsequence of progress-bar events of a trace. -/
def progressTrace (events : List Event) : List Event := events.filter isProgressEvent

/-- Is this event a ramp command whose channel batch is exactly `[c]`? -/
def isRampTo (c : Chan) : Event → Bool
| Event.rampCall channels _ _ _ => decide (channels = [c])
| _ => false

/-- How many ramp commands of the trace target exactly the batch `[c]`. -/
def rampCallsTo (c : Chan) (events : List Event) : Nat :=
  (events.filter (isRampTo c)).length

/-- The measurement row emitted for one sample: the running `results` list
with the swept slot `si` overwritten by the just-applied setpoint and the
trailing slot `li` overwritten by the meter reading. -/
def sampleAt (base : List (Option (ParamId × ℚ))) (si li : Nat) (ch : Chan) (v g : ℚ) :
    List (Option (ParamId × ℚ)) :=
  (base.set si (some (ParamId.chanV ch, v))).set li (some (ParamId.dmmVolt, g))

/-- The rows a fault-free 1-D measurement loop emits: one `sampleAt` row per
setpoint, the `k`-th meter reading pairing with the `k`-th setpoint. -/
def expected1d (base : List (Option (ParamId × ℚ))) (si li : Nat) (ch : Chan)
    (mval : Nat → ℚ) : List ℚ → Nat → List (List (Option (ParamId × ℚ)))
| [], _ => []
| v :: rest, k =>
    sampleAt base si li ch v (mval k) :: expected1d base si li ch mval rest (k + 1)

/-- The rows a fault-free 2-D sweep emits, outer-major: for each outer
setpoint the full inner block, with the outer slot `c1` held at that setpoint. -/
def expected2d (base : List (Option (ParamId × ℚ))) (c1 c2 l : Nat) (ch1 ch2 : Chan)
    (mval : Nat → ℚ) (vs : List ℚ) : List ℚ → Nat → List (List (Option (ParamId × ℚ)))
| [], _ => []
| o :: orest, k =>
    expected1d (base.set c1 (some (ParamId.chanV ch1, o))) c2 l ch2 mval vs k
      ++ expected2d base c1 c2 l ch1 ch2 mval vs orest (k + vs.length)

@[simp] lemma waiting_time_eq (d s : ℚ) : waiting_time d s = max (|d| / s) (1/500) := by
  simp only [waiting_time]
  split_ifs with h
  · rw [max_eq_right h.le]
  · rw [max_eq_left (not_lt.1 h)]

lemma waiting_time_ten : waiting_time 10 1 = 10 := by norm_num [waiting_time]

@[simp] lemma applyRamp_nil (f : Chan → ℚ) : applyRamp f [] = f := rfl

@[simp] lemma applyRamp_cons (f : Chan → ℚ) (p : Chan × ℚ) (rest : List (Chan × ℚ)) :
    applyRamp f (p :: rest) = applyRamp (Function.update f p.1 p.2) rest := rfl

lemma applyRamp_not_mem (f : Chan → ℚ) (pairs : List (Chan × ℚ)) (c : Chan)
    (h : c ∉ pairs.map Prod.fst) : applyRamp f pairs c = f c := by
  induction pairs generalizing f with
  | nil => rfl
  | cons p rest ih =>
      simp only [List.map_cons, List.mem_cons, not_or] at h
      rw [applyRamp_cons, ih _ h.2, Function.update_noteq h.1]

lemma applyRamp_zip_zero (cs : List Chan) (f : Chan → ℚ) (c : Chan) (h : c ∈ cs) :
    applyRamp f (cs.zip (List.replicate cs.length (0 : ℚ))) c = 0 := by
  induction cs generalizing f with
  | nil => cases h
  | cons a rest ih =>
      simp only [List.length_cons, List.replicate_succ, List.zip_cons_cons, applyRamp_cons]
      by_cases hc : c ∈ rest
      · exact ih _ hc
      · have hca : c = a := by rcases List.mem_cons.1 h with h1 | h1; exact h1; exact absurd h1 hc
        subst hca
        rw [applyRamp_not_mem]
        · simp
        · rw [List.map_fst_zip _ _ (by simp)]
          exact hc

@[simp] lemma set_one_meterIdx (s : DevState) (c : Chan) (v : ℚ) :
    (set_channel_voltage_one s c v).1.meterIdx = s.meterIdx := rfl

@[simp] lemma set_one_dacOpen (s : DevState) (c : Chan) (v : ℚ) :
    (set_channel_voltage_one s c v).1.dacOpen = s.dacOpen := rfl

@[simp] lemma set_one_dmmOpen (s : DevState) (c : Chan) (v : ℚ) :
    (set_channel_voltage_one s c v).1.dmmOpen = s.dmmOpen := rfl

@[simp] lemma set_one_dacCloses (s : DevState) (c : Chan) (v : ℚ) :
    (set_channel_voltage_one s c v).1.dacCloses = s.dacCloses := rfl

@[simp] lemma set_one_dmmCloses (s : DevState) (c : Chan) (v : ℚ) :
    (set_channel_voltage_one s c v).1.dmmCloses = s.dmmCloses := rfl

@[simp] lemma set_one_volt (s : DevState) (c : Chan) (v : ℚ) :
    (set_channel_voltage_one s c v).1.volt = Function.update s.volt c v := rfl

@[simp] lemma set_one_events (s : DevState) (c : Chan) (v : ℚ) :
    (set_channel_voltage_one s c v).2 =
      [Event.getV c (s.volt c),
       Event.rampCall [c] [s.volt c] [v] (waiting_time (v - s.volt c) 1),
       Event.sleep (waiting_time (v - s.volt c) 1)] := rfl

@[simp] lemma set_many_events (s : DevState) (cs : List Chan) (vs : List ℚ) :
    (set_channel_voltage_many s cs vs).2 =
      cs.map (fun c => Event.getV c (s.volt c)) ++
        [Event.rampCall cs (cs.map s.volt) vs (waiting_time 10 1),
         Event.sleep (waiting_time 10 1)] := by
  simp [set_channel_voltage_many, ramp_voltages]

@[simp] lemma set_many_volt (s : DevState) (cs : List Chan) (vs : List ℚ) :
    (set_channel_voltage_many s cs vs).1.volt = applyRamp s.volt (cs.zip vs) := rfl

@[simp] lemma set_many_meterIdx (s : DevState) (cs : List Chan) (vs : List ℚ) :
    (set_channel_voltage_many s cs vs).1.meterIdx = s.meterIdx := rfl

lemma set2_collapse {α : Type} (X : List α) (i j : Nat) (hij : i ≠ j) (a b p q : α) :
    (((X.set i a).set j b).set i p).set j q = (X.set i p).set j q := by
  rw [List.set_comm b p _ (Ne.symm hij), List.set_set, List.set_set]

lemma sampleAt_base_set (base : List (Option (ParamId × ℚ))) (si li : Nat) (hne : si ≠ li)
    (x y : Option (ParamId × ℚ)) (ch : Chan) (v g : ℚ) :
    sampleAt ((base.set si x).set li y) si li ch v g = sampleAt base si li ch v g :=
  set2_collapse base si li hne x y _ _

lemma expected1d_base_set (base : List (Option (ParamId × ℚ))) (si li : Nat) (hne : si ≠ li)
    (x y : Option (ParamId × ℚ)) (ch : Chan) (mval : Nat → ℚ) (vs : List ℚ) (k : Nat) :
    expected1d ((base.set si x).set li y) si li ch mval vs k
      = expected1d base si li ch mval vs k := by
  induction vs generalizing k with
  | nil => rfl
  | cons v rest ih => simp only [expected1d, sampleAt_base_set base si li hne, ih]

@[simp] lemma expected1d_length (base : List (Option (ParamId × ℚ))) (si li : Nat) (ch : Chan)
    (mval : Nat → ℚ) (vs : List ℚ) (k : Nat) :
    (expected1d base si li ch mval vs k).length = vs.length := by
  induction vs generalizing k with
  | nil => rfl
  | cons v rest ih => simp [expected1d, ih]

lemma expected1d_getElem (base : List (Option (ParamId × ℚ))) (si li : Nat) (ch : Chan)
    (mval : Nat → ℚ) (vs : List ℚ) (k : Nat) (i : Nat) (h : i < vs.length) :
    (expected1d base si li ch mval vs k)[i]? = some (sampleAt base si li ch (vs[i]) (mval (k + i))) := by
  induction vs generalizing k i with
  | nil => cases h
  | cons v rest ih =>
      cases i with
      | zero => simp [expected1d]
      | succ n =>
          have hn : n < rest.length := by simpa using Nat.lt_of_succ_lt_succ h
          have harith : k + 1 + n = k + (n + 1) := by omega
          simp only [expected1d, List.getElem?_cons_succ, ih (k + 1) n hn, harith,
            List.getElem_cons_succ]

@[simp] lemma sampleAt_length (base : List (Option (ParamId × ℚ))) (si li : Nat) (ch : Chan)
    (v g : ℚ) : (sampleAt base si li ch v g).length = base.length := by
  simp [sampleAt]

lemma sampleAt_get_li (base : List (Option (ParamId × ℚ))) (si li : Nat) (ch : Chan)
    (v g : ℚ) (h : li < base.length) :
    (sampleAt base si li ch v g)[li]? = some (some (ParamId.dmmVolt, g)) := by
  have hlt : li < ((base.set si (some (ParamId.chanV ch, v)))).length := by simpa using h
  rw [sampleAt, List.getElem?_set_eq_of_lt _ hlt]

lemma sampleAt_get_si (base : List (Option (ParamId × ℚ))) (si li : Nat) (ch : Chan)
    (v g : ℚ) (hne : si ≠ li) (h : si < base.length) :
    (sampleAt base si li ch v g)[si]? = some (some (ParamId.chanV ch, v)) := by
  rw [sampleAt, List.getElem?_set_ne (Ne.symm hne), List.getElem?_set_eq_of_lt _ h]

lemma sampleAt_get_other (base : List (Option (ParamId × ℚ))) (si li : Nat) (ch : Chan)
    (v g : ℚ) (j : Nat) (hj1 : j ≠ si) (hj2 : j ≠ li) :
    (sampleAt base si li ch v g)[j]? = base[j]? := by
  rw [sampleAt, List.getElem?_set_ne (Ne.symm hj2), List.getElem?_set_ne (Ne.symm hj1)]

@[simp] lemma emittedSamples_nil : emittedSamples [] = [] := rfl

@[simp] lemma emittedSamples_append (a b : List Event) :
    emittedSamples (a ++ b) = emittedSamples a ++ emittedSamples b := by
  simp [emittedSamples]

@[simp] lemma emittedSamples_cons_getV (c : Chan) (v : ℚ) (rest : List Event) :
    emittedSamples (Event.getV c v :: rest) = emittedSamples rest := rfl

@[simp] lemma emittedSamples_cons_rampCall (cs : List Chan) (fs ts : List ℚ) (d : ℚ)
    (rest : List Event) :
    emittedSamples (Event.rampCall cs fs ts d :: rest) = emittedSamples rest := rfl

@[simp] lemma emittedSamples_cons_sleep (t : ℚ) (rest : List Event) :
    emittedSamples (Event.sleep t :: rest) = emittedSamples rest := rfl

@[simp] lemma emittedSamples_cons_meterRead (v : ℚ) (rest : List Event) :
    emittedSamples (Event.meterRead v :: rest) = emittedSamples rest := rfl

@[simp] lemma emittedSamples_cons_addResult (r : List (Option (ParamId × ℚ)))
    (rest : List Event) :
    emittedSamples (Event.addResult r :: rest) = r :: emittedSamples rest := rfl

@[simp] lemma emittedSamples_cons_outerUpdate (rest : List Event) :
    emittedSamples (Event.outerUpdate :: rest) = emittedSamples rest := rfl

@[simp] lemma emittedSamples_cons_innerUpdate (rest : List Event) :
    emittedSamples (Event.innerUpdate :: rest) = emittedSamples rest := rfl

@[simp] lemma emittedSamples_cons_innerReset (rest : List Event) :
    emittedSamples (Event.innerReset :: rest) = emittedSamples rest := rfl

@[simp] lemma emittedSamples_cons_closeDac (rest : List Event) :
    emittedSamples (Event.closeDac :: rest) = emittedSamples rest := rfl

@[simp] lemma emittedSamples_cons_closeDmm (rest : List Event) :
    emittedSamples (Event.closeDmm :: rest) = emittedSamples rest := rfl

@[simp] lemma progressTrace_nil : progressTrace [] = [] := rfl

@[simp] lemma progressTrace_append (a b : List Event) :
    progressTrace (a ++ b) = progressTrace a ++ progressTrace b := by
  simp [progressTrace]

@[simp] lemma progressTrace_cons_getV (c : Chan) (v : ℚ) (rest : List Event) :
    progressTrace (Event.getV c v :: rest) = progressTrace rest := rfl

@[simp] lemma progressTrace_cons_rampCall (cs : List Chan) (fs ts : List ℚ) (d : ℚ)
    (rest : List Event) :
    progressTrace (Event.rampCall cs fs ts d :: rest) = progressTrace rest := rfl

@[simp] lemma progressTrace_cons_sleep (t : ℚ) (rest : List Event) :
    progressTrace (Event.sleep t :: rest) = progressTrace rest := rfl

@[simp] lemma progressTrace_cons_meterRead (v : ℚ) (rest : List Event) :
    progressTrace (Event.meterRead v :: rest) = progressTrace rest := rfl

@[simp] lemma progressTrace_cons_addResult (r : List (Option (ParamId × ℚ)))
    (rest : List Event) :
    progressTrace (Event.addResult r :: rest) = progressTrace rest := rfl

@[simp] lemma progressTrace_cons_outerUpdate (rest : List Event) :
    progressTrace (Event.outerUpdate :: rest) = Event.outerUpdate :: progressTrace rest := rfl

@[simp] lemma progressTrace_cons_innerUpdate (rest : List Event) :
    progressTrace (Event.innerUpdate :: rest) = Event.innerUpdate :: progressTrace rest := rfl

@[simp] lemma progressTrace_cons_innerReset (rest : List Event) :
    progressTrace (Event.innerReset :: rest) = Event.innerReset :: progressTrace rest := rfl

@[simp] lemma progressTrace_cons_closeDac (rest : List Event) :
    progressTrace (Event.closeDac :: rest) = progressTrace rest := rfl

@[simp] lemma progressTrace_cons_closeDmm (rest : List Event) :
    progressTrace (Event.closeDmm :: rest) = progressTrace rest := rfl

@[simp] lemma rampCallsTo_nil (c : Chan) : rampCallsTo c [] = 0 := rfl

@[simp] lemma rampCallsTo_append (c : Chan) (a b : List Event) :
    rampCallsTo c (a ++ b) = rampCallsTo c a + rampCallsTo c b := by
  simp [rampCallsTo]

@[simp] lemma rampCallsTo_cons_rampCall (c : Chan) (cs : List Chan) (fs ts : List ℚ) (d : ℚ)
    (rest : List Event) :
    rampCallsTo c (Event.rampCall cs fs ts d :: rest)
      = (if cs = [c] then 1 else 0) + rampCallsTo c rest := by
  by_cases h : cs = [c] <;> simp [rampCallsTo, isRampTo, List.filter_cons, h, Nat.add_comm]

@[simp] lemma rampCallsTo_cons_getV (c : Chan) (c2 : Chan) (v : ℚ) (rest : List Event) :
    rampCallsTo c (Event.getV c2 v :: rest) = rampCallsTo c rest := rfl

@[simp] lemma rampCallsTo_cons_sleep (c : Chan) (t : ℚ) (rest : List Event) :
    rampCallsTo c (Event.sleep t :: rest) = rampCallsTo c rest := rfl

@[simp] lemma rampCallsTo_cons_meterRead (c : Chan) (v : ℚ) (rest : List Event) :
    rampCallsTo c (Event.meterRead v :: rest) = rampCallsTo c rest := rfl

@[simp] lemma rampCallsTo_cons_addResult (c : Chan) (r : List (Option (ParamId × ℚ)))
    (rest : List Event) :
    rampCallsTo c (Event.addResult r :: rest) = rampCallsTo c rest := rfl

@[simp] lemma rampCallsTo_cons_outerUpdate (c : Chan) (rest : List Event) :
    rampCallsTo c (Event.outerUpdate :: rest) = rampCallsTo c rest := rfl

@[simp] lemma rampCallsTo_cons_innerUpdate (c : Chan) (rest : List Event) :
    rampCallsTo c (Event.innerUpdate :: rest) = rampCallsTo c rest := rfl

@[simp] lemma rampCallsTo_cons_innerReset (c : Chan) (rest : List Event) :
    rampCallsTo c (Event.innerReset :: rest) = rampCallsTo c rest := rfl

@[simp] lemma rampCallsTo_cons_closeDac (c : Chan) (rest : List Event) :
    rampCallsTo c (Event.closeDac :: rest) = rampCallsTo c rest := rfl

@[simp] lemma rampCallsTo_cons_closeDmm (c : Chan) (rest : List Event) :
    rampCallsTo c (Event.closeDmm :: rest) = rampCallsTo c rest := rfl

lemma sweep1dLoop_ok (meter : Nat → Except Unit ℚ) (mval : Nat → ℚ)
    (hm : ∀ k, meter k = Except.ok (mval k)) (ch : Chan) (si li : Nat) (hne : si ≠ li) :
    ∀ (vs : List ℚ) (base : List (Option (ParamId × ℚ))) (s : DevState),
      (sweep1dLoop meter ch si li vs base s).2.2 = Except.ok () ∧
      emittedSamples (sweep1dLoop meter ch si li vs base s).2.1
        = expected1d base si li ch mval vs s.meterIdx ∧
      (∀ x, x ≠ ch → (sweep1dLoop meter ch si li vs base s).1.volt x = s.volt x) ∧
      (sweep1dLoop meter ch si li vs base s).1.meterIdx = s.meterIdx + vs.length ∧
      (sweep1dLoop meter ch si li vs base s).1.dacOpen = s.dacOpen ∧
      (sweep1dLoop meter ch si li vs base s).1.dmmOpen = s.dmmOpen ∧
      (sweep1dLoop meter ch si li vs base s).1.dacCloses = s.dacCloses ∧
      (sweep1dLoop meter ch si li vs base s).1.dmmCloses = s.dmmCloses ∧
      (∀ e ∈ (sweep1dLoop meter ch si li vs base s).2.1,
        ∀ chans fs ts d, e = Event.rampCall chans fs ts d → chans = [ch]) := by
  intro vs
  induction vs with
  | nil =>
      intro base s
      simp [sweep1dLoop, expected1d]
  | cons v rest ih =>
      intro base s
      obtain ⟨ih1, ih2, ih3, ih4, ih5, ih6, ih7, ih8, ih9⟩ :=
        ih ((base.set si (some (ParamId.chanV ch, v))).set li
              (some (ParamId.dmmVolt, mval s.meterIdx)))
          ⟨Function.update s.volt ch v, s.dacOpen, s.dmmOpen, s.dacCloses, s.dmmCloses,
            s.meterIdx + 1⟩
      simp only [sweep1dLoop, set_one_meterIdx, hm]
      simp only [set_one_events, set_one_volt, set_one_dacOpen, set_one_dmmOpen,
        set_one_dacCloses, set_one_dmmCloses, set_one_meterIdx]
      refine ⟨?_, ?_, ?_, ?_, ?_, ?_, ?_, ?_, ?_⟩
      · simpa using ih1
      · simp only [List.cons_append, List.nil_append, emittedSamples_cons_getV,
          emittedSamples_cons_rampCall, emittedSamples_cons_sleep,
          emittedSamples_cons_outerUpdate, emittedSamples_cons_meterRead,
          emittedSamples_cons_addResult]
        rw [ih2]
        simp [expected1d, sampleAt, expected1d_base_set base si li hne]
      · intro x hx
        rw [ih3 x hx]
        exact Function.update_noteq hx v s.volt
      · rw [ih4]
        simp
        omega
      · rw [ih5]
      · rw [ih6]
      · rw [ih7]
      · rw [ih8]
      · intro e he chans fs ts d hd
        subst hd
        simp only [List.cons_append, List.nil_append, List.mem_cons] at he
        rcases he with h1 | h1 | h1 | h1 | h1 | h1 | h1
        · exact absurd h1 (by simp)
        · rw [Event.rampCall.injEq] at h1
          exact h1.1
        · exact absurd h1 (by simp)
        · exact absurd h1 (by simp)
        · exact absurd h1 (by simp)
        · exact absurd h1 (by simp)
        · exact ih9 _ h1 chans fs ts d rfl

lemma sweep1dLoop_error (meter : Nat → Except Unit ℚ) (ch : Chan) (si li : Nat) :
    ∀ (vs : List ℚ) (base : List (Option (ParamId × ℚ))) (s : DevState) (k : Nat),
      k < vs.length →
      meter (s.meterIdx + k) = Except.error () →
      (∀ j, j < k → ∃ g, meter (s.meterIdx + j) = Except.ok g) →
      (sweep1dLoop meter ch si li vs base s).2.2 = Except.error () ∧
      (sweep1dLoop meter ch si li vs base s).1.dacOpen = s.dacOpen ∧
      (sweep1dLoop meter ch si li vs base s).1.dmmOpen = s.dmmOpen ∧
      (sweep1dLoop meter ch si li vs base s).1.dacCloses = s.dacCloses ∧
      (sweep1dLoop meter ch si li vs base s).1.dmmCloses = s.dmmCloses ∧
      (∀ e ∈ (sweep1dLoop meter ch si li vs base s).2.1,
        ∀ chans fs ts d, e = Event.rampCall chans fs ts d → chans = [ch]) := by
  intro vs
  induction vs with
  | nil =>
      intro base s k hk
      exact absurd hk (by simp)
  | cons v rest ih =>
      intro base s k hk herr hok
      cases k with
      | zero =>
          rw [Nat.add_zero] at herr
          simp only [sweep1dLoop, set_one_meterIdx, herr]
          simp only [set_one_events, set_one_dacOpen, set_one_dmmOpen, set_one_dacCloses,
            set_one_dmmCloses]
          refine ⟨by trivial, by trivial, by trivial, by trivial, by trivial, ?_⟩
          intro e he chans fs ts d hd
          subst hd
          simp only [List.cons_append, List.nil_append, List.mem_cons] at he
          rcases he with h1 | h1 | h1 | h1 | h1
          · exact absurd h1 (by simp)
          · rw [Event.rampCall.injEq] at h1
            exact h1.1
          · exact absurd h1 (by simp)
          · exact absurd h1 (by simp)
          · exact absurd h1 (by simp)
      | succ k0 =>
          obtain ⟨g, hg⟩ := hok 0 (Nat.succ_pos k0)
          rw [Nat.add_zero] at hg
          have hk0 : k0 < rest.length := by simpa using Nat.lt_of_succ_lt_succ hk
          have herr0 : meter (s.meterIdx + 1 + k0) = Except.error () := by
            rw [show s.meterIdx + 1 + k0 = s.meterIdx + (k0 + 1) from by omega]
            exact herr
          have hok0 : ∀ j, j < k0 → ∃ g0, meter (s.meterIdx + 1 + j) = Except.ok g0 := by
            intro j hj
            obtain ⟨g0, hg0⟩ := hok (j + 1) (by omega)
            exact ⟨g0, by rw [show s.meterIdx + 1 + j = s.meterIdx + (j + 1) from by omega]; exact hg0⟩
          obtain ⟨c1, c2, c3, c4, c5, c6⟩ :=
            ih ((base.set si (some (ParamId.chanV ch, v))).set li (some (ParamId.dmmVolt, g)))
              ⟨Function.update s.volt ch v, s.dacOpen, s.dmmOpen, s.dacCloses, s.dmmCloses,
                s.meterIdx + 1⟩ k0 hk0 herr0 hok0
          simp only [sweep1dLoop, set_one_meterIdx, hg]
          simp only [set_one_events, set_one_volt, set_one_dacOpen, set_one_dmmOpen,
            set_one_dacCloses, set_one_dmmCloses, set_one_meterIdx]
          refine ⟨c1, c2, c3, c4, c5, ?_⟩
          intro e he chans fs ts d hd
          subst hd
          simp only [List.cons_append, List.nil_append, List.mem_cons] at he
          rcases he with h1 | h1 | h1 | h1 | h1 | h1 | h1
          · exact absurd h1 (by simp)
          · rw [Event.rampCall.injEq] at h1
            exact h1.1
          · exact absurd h1 (by simp)
          · exact absurd h1 (by simp)
          · exact absurd h1 (by simp)
          · exact absurd h1 (by simp)
          · exact c6 _ h1 chans fs ts d rfl

lemma emittedSamples_of_getV (l : List Event) (h : ∀ e ∈ l, ∃ c v, e = Event.getV c v) :
    emittedSamples l = [] := by
  induction l with
  | nil => rfl
  | cons e t ih =>
      obtain ⟨c, v, rfl⟩ := h e (List.mem_cons_self e t)
      rw [emittedSamples_cons_getV]
      exact ih (fun e' he' => h e' (List.mem_cons_of_mem _ he'))

lemma progressTrace_of_getV (l : List Event) (h : ∀ e ∈ l, ∃ c v, e = Event.getV c v) :
    progressTrace l = [] := by
  induction l with
  | nil => rfl
  | cons e t ih =>
      obtain ⟨c, v, rfl⟩ := h e (List.mem_cons_self e t)
      rw [progressTrace_cons_getV]
      exact ih (fun e' he' => h e' (List.mem_cons_of_mem _ he'))

lemma rampCallsTo_of_getV (c0 : Chan) (l : List Event) (h : ∀ e ∈ l, ∃ c v, e = Event.getV c v) :
    rampCallsTo c0 l = 0 := by
  induction l with
  | nil => rfl
  | cons e t ih =>
      obtain ⟨c, v, rfl⟩ := h e (List.mem_cons_self e t)
      rw [rampCallsTo_cons_getV]
      exact ih (fun e' he' => h e' (List.mem_cons_of_mem _ he'))

lemma registration_events_shape (s : DevState) (cs sw : List Chan) :
    ∀ e ∈ (registration s cs sw).1, ∃ c v, e = Event.getV c v := by
  intro e he
  simp only [registration, List.mem_filterMap] at he
  obtain ⟨c, _, hif⟩ := he
  by_cases hc : c ∈ sw
  · rw [if_pos hc] at hif
    cases hif
  · rw [if_neg hc] at hif
    exact ⟨c, s.volt c, (Option.some_inj.1 hif).symm⟩

lemma map_getV_shape (cs : List Chan) (f : Chan → ℚ) :
    ∀ e ∈ cs.map (fun c => Event.getV c (f c)), ∃ c v, e = Event.getV c v := by
  intro e he
  simp only [List.mem_map] at he
  obtain ⟨c, _, rfl⟩ := he
  exact ⟨c, f c, rfl⟩

@[simp] lemma registration_length (s : DevState) (cs sw : List Chan) :
    (registration s cs sw).2.length = cs.length + 1 := by
  simp [registration]

lemma exception_handler_ok {α : Type} (body : DevState → DevState × List Event × Except Unit α)
    (s : DevState) (a : α) (h : (body s).2.2 = Except.ok a) :
    exception_handler_general body s = ((body s).1, (body s).2.1, some a) := by
  simp only [exception_handler_general, h]

lemma exception_handler_error {α : Type} (body : DevState → DevState × List Event × Except Unit α)
    (s : DevState) (e : Unit) (h : (body s).2.2 = Except.error e) :
    exception_handler_general body s =
      ((close_connections (body s).1).1, (body s).2.1 ++ (close_connections (body s).1).2, none) := by
  simp only [exception_handler_general, h]

lemma dc_1d_body_ok (cfg : DeviceCfg) (mval : Nat → ℚ)
    (hm : ∀ k, cfg.meter k = Except.ok (mval k)) (ch : Chan) (minV maxV : ℚ)
    (steps : Nat) (s : DevState) (hch : ch ∈ cfg.connected_channels) :
    (dc_1d_body cfg ch minV maxV steps s).2.2 = Except.ok () ∧
    emittedSamples (dc_1d_body cfg ch minV maxV steps s).2.1
      = expected1d (registration s cfg.connected_channels [ch]).2
          (cfg.connected_channels.indexOf ch) cfg.connected_channels.length ch mval
          (linspace minV maxV steps) s.meterIdx ∧
    (∀ c ∈ cfg.connected_channels, (dc_1d_body cfg ch minV maxV steps s).1.volt c = 0) ∧
    (∃ pre s1, (dc_1d_body cfg ch minV maxV steps s).2.1
      = pre ++ (set_channel_voltage_many s1 cfg.connected_channels
                  (List.replicate cfg.connected_channels.length 0)).2) ∧
    (∀ e ∈ (dc_1d_body cfg ch minV maxV steps s).2.1, ∀ chans fs ts d,
        e = Event.rampCall chans fs ts d → chans = [ch] ∨ chans = cfg.connected_channels) := by
  have hsi : cfg.connected_channels.indexOf ch < cfg.connected_channels.length :=
    List.indexOf_lt_length.2 hch
  have hne : cfg.connected_channels.indexOf ch ≠ cfg.connected_channels.length :=
    Nat.ne_of_lt hsi
  obtain ⟨l1, l2, l3, l4, l5, l6, l7, l8, l9⟩ :=
    sweep1dLoop_ok cfg.meter mval hm ch (cfg.connected_channels.indexOf ch)
      cfg.connected_channels.length hne (linspace minV maxV steps)
      (registration s cfg.connected_channels [ch]).2 s
  simp only [dc_1d_body, if_pos hch, l1]
  refine ⟨trivial, ?_, ?_, ?_, ?_⟩
  · simp only [emittedSamples_append, l2,
      emittedSamples_of_getV _ (registration_events_shape s cfg.connected_channels [ch]),
      set_many_events, emittedSamples_of_getV _ (map_getV_shape cfg.connected_channels _),
      emittedSamples_cons_rampCall, emittedSamples_cons_sleep, emittedSamples_nil]
    simp
  · intro c hc
    simp only [set_many_volt]
    exact applyRamp_zip_zero cfg.connected_channels _ c hc
  · exact ⟨(registration s cfg.connected_channels [ch]).1 ++
        (sweep1dLoop cfg.meter ch (cfg.connected_channels.indexOf ch)
          cfg.connected_channels.length (linspace minV maxV steps)
          (registration s cfg.connected_channels [ch]).2 s).2.1,
      (sweep1dLoop cfg.meter ch (cfg.connected_channels.indexOf ch)
          cfg.connected_channels.length (linspace minV maxV steps)
          (registration s cfg.connected_channels [ch]).2 s).1,
      by rw [List.append_assoc]⟩
  · intro e he chans fs ts d hd
    simp only [List.append_assoc, List.mem_append] at he
    rcases he with he | he | he
    · obtain ⟨c, v, rfl⟩ := registration_events_shape s cfg.connected_channels [ch] e he
      cases hd
    · exact Or.inl (l9 e he chans fs ts d hd)
    · simp only [set_many_events, List.mem_append, List.mem_cons] at he
      rcases he with he | he | he | he
      · obtain ⟨c, v, rfl⟩ := map_getV_shape cfg.connected_channels _ e he
        cases hd
      · subst hd
        rw [Event.rampCall.injEq] at he
        exact Or.inr he.1
      · subst hd
        cases he
      · cases he

lemma dc_1d_ok (cfg : DeviceCfg) (mval : Nat → ℚ)
    (hm : ∀ k, cfg.meter k = Except.ok (mval k)) (ch : Chan) (minV maxV : ℚ)
    (steps : Nat) (s : DevState) (hch : ch ∈ cfg.connected_channels) :
    (dc_1d_gate_sweep cfg ch minV maxV steps s).2.2 = some () ∧
    emittedSamples (dc_1d_gate_sweep cfg ch minV maxV steps s).2.1
      = expected1d (registration s cfg.connected_channels [ch]).2
          (cfg.connected_channels.indexOf ch) cfg.connected_channels.length ch mval
          (linspace minV maxV steps) s.meterIdx ∧
    (∀ c ∈ cfg.connected_channels, (dc_1d_gate_sweep cfg ch minV maxV steps s).1.volt c = 0) ∧
    (∃ pre s1, (dc_1d_gate_sweep cfg ch minV maxV steps s).2.1
      = pre ++ (set_channel_voltage_many s1 cfg.connected_channels
                  (List.replicate cfg.connected_channels.length 0)).2) ∧
    (∀ e ∈ (dc_1d_gate_sweep cfg ch minV maxV steps s).2.1, ∀ chans fs ts d,
        e = Event.rampCall chans fs ts d → chans = [ch] ∨ chans = cfg.connected_channels) := by
  obtain ⟨b1, b2, b3, b4, b5⟩ := dc_1d_body_ok cfg mval hm ch minV maxV steps s hch
  rw [dc_1d_gate_sweep, exception_handler_ok _ s () b1]
  exact ⟨rfl, b2, b3, b4, b5⟩

@[simp] lemma linspace_length (a b : ℚ) (n : Nat) : (linspace a b n).length = n := by
  rw [linspace, List.length_map, List.length_range]

lemma linspace_getElem (a b : ℚ) (n i : Nat) (h : i < n) :
    (linspace a b n)[i]? = some (a + (i : ℚ) * ((b - a) / ((n : ℚ) - 1))) := by
  rw [linspace, List.getElem?_map, List.getElem?_range h]
  rfl

lemma linspace_first (a b : ℚ) (n : Nat) (h : 0 < n) :
    (linspace a b n)[0]? = some a := by
  rw [linspace_getElem a b n 0 h]
  norm_num

lemma linspace_last (a b : ℚ) (n : Nat) (h : 2 ≤ n) :
    (linspace a b n)[n - 1]? = some b := by
  rw [linspace_getElem a b n (n - 1) (by omega)]
  have h1 : ((n - 1 : Nat) : ℚ) = (n : ℚ) - 1 := by
    have : (1 : Nat) ≤ n := by omega
    push_cast [Nat.cast_sub this]
    ring
  have h2 : ((n : ℚ) - 1) ≠ 0 := by
    have : (2 : ℚ) ≤ (n : ℚ) := by exact_mod_cast h
    intro hc
    rw [sub_eq_zero] at hc
    rw [hc] at this
    norm_num at this
  rw [h1, mul_div_assoc', mul_comm, ← mul_div_assoc', div_self h2, mul_one]
  norm_num

lemma linspace_spacing (a b : ℚ) (n i : Nat) (h : i + 1 < n) :
    ∃ x y, (linspace a b n)[i]? = some x ∧ (linspace a b n)[i + 1]? = some y ∧
      y - x = (b - a) / ((n : ℚ) - 1) := by
  refine ⟨_, _, linspace_getElem a b n i (by omega), linspace_getElem a b n (i + 1) h, ?_⟩
  push_cast
  ring

lemma registration_base_getElem (s : DevState) (cs sw : List Chan) (j : Nat)
    (hj : j < cs.length) :
    (registration s cs sw).2[j]? =
      some (if cs[j] ∈ sw then none
            else some (ParamId.chanV (cs[j]), s.volt (cs[j]))) := by
  rw [registration, List.getElem?_append_left (by simpa using hj), List.getElem?_map,
    List.getElem?_eq_getElem hj]
  rfl

lemma close_connections_open (s : DevState) (h1 : s.dacOpen = true) (h2 : s.dmmOpen = true) :
    (close_connections s).2 = [Event.closeDac, Event.closeDmm] ∧
    (close_connections s).1.dacCloses = s.dacCloses + 1 ∧
    (close_connections s).1.dmmCloses = s.dmmCloses + 1 ∧
    (close_connections s).1.dacOpen = false ∧
    (close_connections s).1.dmmOpen = true := by
  simp [close_connections, h1, h2]

lemma dc_1d_body_error (cfg : DeviceCfg) (ch : Chan) (minV maxV : ℚ) (steps : Nat)
    (s : DevState) (k : Nat) (hch : ch ∈ cfg.connected_channels) (hk : k < steps)
    (herr : cfg.meter (s.meterIdx + k) = Except.error ())
    (hok : ∀ j, j < k → ∃ g, cfg.meter (s.meterIdx + j) = Except.ok g) :
    (dc_1d_body cfg ch minV maxV steps s).2.2 = Except.error () ∧
    (dc_1d_body cfg ch minV maxV steps s).1.dacOpen = s.dacOpen ∧
    (dc_1d_body cfg ch minV maxV steps s).1.dmmOpen = s.dmmOpen ∧
    (dc_1d_body cfg ch minV maxV steps s).1.dacCloses = s.dacCloses ∧
    (dc_1d_body cfg ch minV maxV steps s).1.dmmCloses = s.dmmCloses ∧
    (∀ e ∈ (dc_1d_body cfg ch minV maxV steps s).2.1,
      ∀ chans fs ts d, e = Event.rampCall chans fs ts d → chans = [ch]) := by
  obtain ⟨e1, e2, e3, e4, e5, e6⟩ :=
    sweep1dLoop_error cfg.meter ch (cfg.connected_channels.indexOf ch)
      cfg.connected_channels.length (linspace minV maxV steps)
      (registration s cfg.connected_channels [ch]).2 s k
      (by rw [linspace_length]; exact hk) herr hok
  simp only [dc_1d_body, if_pos hch, e1]
  refine ⟨trivial, e2, e3, e4, e5, ?_⟩
  intro e he chans fs ts d hd
  simp only [List.mem_append] at he
  rcases he with he | he
  · obtain ⟨c, v, rfl⟩ := registration_events_shape s cfg.connected_channels [ch] e he
    cases hd
  · exact e6 e he chans fs ts d hd

/-- Is this event any ramp command at all? -/
def isRampCall : Event → Bool
| Event.rampCall _ _ _ _ => true
| _ => false

lemma filter_isRampCall_map_getV (cs : List Chan) (f : Chan → ℚ) :
    (cs.map (fun c => Event.getV c (f c))).filter isRampCall = [] := by
  induction cs with
  | nil => rfl
  | cons c rest ih => simp [isRampCall, List.filter_cons, ih]

def devOpen : DevState := ⟨fun _ => 0, true, true, 0, 0, 0⟩

def meterConst2 : Nat → Except Unit ℚ := fun _ => Except.ok 2

def meterFailAfterOne : Nat → Except Unit ℚ :=
  fun k => if k = 0 then Except.ok 2 else Except.error ()

def cfgAB : DeviceCfg := ⟨[1, 2], 1, meterFailAfterOne⟩

def cfgC : DeviceCfg := ⟨[1, 2], 1, meterConst2⟩

def cfgSingle3 : DeviceCfg := ⟨[3], 1, meterConst2⟩

/-- C8: the claim that `close_connections` is idempotent (each connection
hardware-closed at most once, second call a no-op) is what the code clearly
intends, but the source sets `self.dac_open = False` in the DMM branch instead
of `self.dmm_open = False`, so `dmm_open` is never cleared: on a device with
both connections open, the first call closes DAC and DMM once each but leaves
`dmm_open` true, and a second call hardware-closes the DMM again (total DMM
closes = 2) and emits another close event, so the state after two calls
differs from the state after one. -/
theorem claim_C8 :
    (close_connections devOpen).1.dmmOpen = true ∧
    (close_connections devOpen).1.dmmCloses = 1 ∧
    (close_connections (close_connections devOpen).1).1.dmmCloses = 2 ∧
    (close_connections (close_connections devOpen).1).1.dacCloses = 1 ∧
    (close_connections (close_connections devOpen).1).2 = [Event.closeDmm] := by
  decide

/-- C10: `get_channel_voltage` on a list of channel ids returns a list of the
same length whose i-th element is the held voltage of the i-th requested
channel, in input order; on a single int it returns that channel's voltage as
a scalar (`Arg.one`), not a list. -/
theorem claim_C10 :
    (∀ (s : DevState) (cs : List Chan), cs ≠ [] →
      ∃ vs : List ℚ, (get_channel_voltage s (Arg.many cs)).2 = Arg.many vs ∧
        vs.length = cs.length ∧
        ∀ i (h : i < cs.length), vs[i]? = some (s.volt (cs[i]))) ∧
    (∀ (s : DevState) (c : Chan),
      (get_channel_voltage s (Arg.one c)).2 = Arg.one (s.volt c)) := by
  constructor
  · intro s cs _
    refine ⟨cs.map s.volt, rfl, by simp, ?_⟩
    intro i h
    rw [List.getElem?_map, List.getElem?_eq_getElem h]
    rfl
  · intro s c
    rfl

/-- C10 witness: a concrete three-channel read and a concrete scalar read. -/
theorem claim_C10_witness :
    ([5, 7] : List Chan) ≠ [] ∧
    (∃ vs : List ℚ, (get_channel_voltage devOpen (Arg.many [5, 7])).2 = Arg.many vs ∧
      vs.length = 2 ∧ ∀ i (h : i < ([5, 7] : List Chan).length),
        vs[i]? = some (devOpen.volt (([5, 7] : List Chan)[i]))) ∧
    (get_channel_voltage devOpen (Arg.one 5)).2 = Arg.one (devOpen.volt 5) := by
  refine ⟨by decide, ?_, claim_C10.2 devOpen 5⟩
  exact claim_C10.1 devOpen [5, 7] (by decide)

/-- C3: the claim is false on the code: a multi-channel set does issue a
single ramp call with one shared duration, but the duration is
`waiting_time(10)` from the hardcoded `max_voltage_difference = 10`, not the
maximum absolute delta of the batch.  From all-zero state,
`set(channels=[1,2], targets=[1/2,-1/2])` issues a ramp whose duration is
`10`, while `RampTimer.duration(1/2) = waiting_time (1/2) = 1/2`. -/
theorem claim_C3_counterexample :
    (set_channel_voltage_many devOpen [1, 2] [1/2, -1/2]).2
      = [Event.getV 1 0, Event.getV 2 0,
         Event.rampCall [1, 2] [0, 0] [1/2, -1/2] 10, Event.sleep 10] ∧
    waiting_time (1/2) 1 = 1/2 ∧ (10 : ℚ) ≠ 1/2 := by
  norm_num [set_channel_voltage_many, ramp_voltages, waiting_time, devOpen, abs_of_nonneg]

/-- C3 (amended): every multi-channel set call issues exactly one ramp command
for the whole batch with a single shared duration, and sleeps for that same
duration — but the shared duration is `waiting_time 10 = 10` seconds,
computed from the hardcoded `max_voltage_difference = 10`, independent of the
actual voltage deltas. -/
theorem claim_C3 (s : DevState) (cs : List Chan) (vs : List ℚ) :
    (set_channel_voltage_many s cs vs).2
      = cs.map (fun c => Event.getV c (s.volt c)) ++
        [Event.rampCall cs (cs.map s.volt) vs (waiting_time 10 1),
         Event.sleep (waiting_time 10 1)] ∧
    waiting_time 10 1 = 10 ∧
    ((set_channel_voltage_many s cs vs).2.filter isRampCall).length = 1 := by
  refine ⟨set_many_events s cs vs, waiting_time_ten, ?_⟩
  rw [set_many_events, List.filter_append, filter_isRampCall_map_getV]
  simp [isRampCall, List.filter_cons]

/-- C6: the claim is false in its non-finite part: `waiting_time` does not
reject non-finite inputs.  On NaN the comparison `time < 0.002` is false, so
the function returns NaN — it produces an output instead of rejecting. -/
theorem claim_C6_counterexample :
    waiting_timeF MFloat.nan (MFloat.fin 1) = MFloat.nan ∧
    (waiting_timeF MFloat.nan (MFloat.fin 1)).isFinite = false := by
  constructor <;> rfl

/-- C6 (amended): for finite `delta` and `slope > 0` the duration is exactly
`max (|delta| / slope) (1/500)` and hence at least `1/500 = 0.002`; non-finite
inputs are not rejected but propagate: NaN gives NaN, and both infinities give
`+inf`. -/
theorem claim_C6 :
    (∀ d sl : ℚ, 0 < sl →
      waiting_timeF (MFloat.fin d) (MFloat.fin sl) = MFloat.fin (waiting_time d sl) ∧
      waiting_time d sl = max (|d| / sl) (1/500) ∧
      (1/500 : ℚ) ≤ waiting_time d sl) ∧
    waiting_timeF MFloat.nan (MFloat.fin 1) = MFloat.nan ∧
    waiting_timeF MFloat.inf (MFloat.fin 1) = MFloat.inf ∧
    waiting_timeF MFloat.ninf (MFloat.fin 1) = MFloat.inf := by
  refine ⟨?_, rfl, ?_, ?_⟩
  · intro d sl hsl
    refine ⟨?_, waiting_time_eq d sl, by rw [waiting_time_eq]; exact le_max_right _ _⟩
    simp only [waiting_timeF, MFloat.fabs, MFloat.fdiv, if_neg (ne_of_gt hsl), MFloat.flt,
      waiting_time, decide_eq_true_eq]
    split_ifs <;> rfl
  · simp only [waiting_timeF, MFloat.fabs, MFloat.fdiv, MFloat.flt]
    norm_num
  · simp only [waiting_timeF, MFloat.fabs, MFloat.fdiv, MFloat.flt]
    norm_num

/-- C6 witness: the amended theorem applied at `delta = -3`, `slope = 2`. -/
theorem claim_C6_witness :
    (0 : ℚ) < 2 ∧
    (waiting_timeF (MFloat.fin (-3)) (MFloat.fin 2) = MFloat.fin (waiting_time (-3) 2) ∧
     waiting_time (-3) 2 = max (|(-3 : ℚ)| / 2) (1/500) ∧
     (1/500 : ℚ) ≤ waiting_time (-3) 2) := by
  exact ⟨by norm_num, claim_C6.1 (-3) 2 (by norm_num)⟩

/-- C7: the claim is false on the code: with `connected_channels = [1, 2]`,
sweeping channel 3 trips the `assert` before any hardware write (no ramp
command is issued), but the resulting AssertionError is caught by
`exception_handler_general`, which closes the connections and returns `None`:
the sweep call does not fail with a `ConfigurationError` (no such error kind
exists in the source) — it does not raise anything to the caller at all. -/
theorem claim_C7_counterexample :
    (dc_1d_gate_sweep cfgC 3 0 1 5 devOpen).2.2 = none ∧
    (dc_1d_gate_sweep cfgC 3 0 1 5 devOpen).2.1 = [Event.closeDac, Event.closeDmm] ∧
    (dc_1d_gate_sweep cfgC 3 0 1 5 devOpen).1.dacCloses = 1 ∧
    (dc_1d_gate_sweep cfgC 3 0 1 5 devOpen).1.dmmCloses = 1 ∧
    (dc_1d_body cfgC 3 0 1 5 devOpen).2.2 = Except.error () := by
  refine ⟨?_, ?_, ?_, ?_, ?_⟩ <;>
    simp [dc_1d_gate_sweep, dc_1d_body, exception_handler_general, close_connections,
      cfgC, devOpen]

/-- C7 (amended): for both sweeps, a swept channel outside
`connected_channels` makes the body raise (a failed `assert`) before any
hardware write — the whole trace is just the two connection-close events, so
in particular no ramp command was issued — but the decorator swallows the
error: the connections are closed and the call returns `None` to the caller
instead of raising `ConfigurationError`. -/
theorem claim_C7 :
    (∀ (cfg : DeviceCfg) (ch : Chan) (minV maxV : ℚ) (steps : Nat) (s : DevState),
      ch ∉ cfg.connected_channels → s.dacOpen = true → s.dmmOpen = true →
      (dc_1d_gate_sweep cfg ch minV maxV steps s).2.2 = none ∧
      (dc_1d_gate_sweep cfg ch minV maxV steps s).2.1 = [Event.closeDac, Event.closeDmm] ∧
      (dc_1d_gate_sweep cfg ch minV maxV steps s).1.dacCloses = s.dacCloses + 1 ∧
      (dc_1d_gate_sweep cfg ch minV maxV steps s).1.dmmCloses = s.dmmCloses + 1) ∧
    (∀ (cfg : DeviceCfg) (ch1 ch2 : Chan) (a1 b1 a2 b2 : ℚ) (n1 n2 : Nat) (s : DevState),
      ¬(ch1 ∈ cfg.connected_channels ∧ ch2 ∈ cfg.connected_channels) →
      s.dacOpen = true → s.dmmOpen = true →
      (dc_2d_gate_sweep cfg ch1 ch2 a1 b1 a2 b2 n1 n2 s).2.2 = none ∧
      (dc_2d_gate_sweep cfg ch1 ch2 a1 b1 a2 b2 n1 n2 s).2.1
        = [Event.closeDac, Event.closeDmm] ∧
      (dc_2d_gate_sweep cfg ch1 ch2 a1 b1 a2 b2 n1 n2 s).1.dacCloses = s.dacCloses + 1 ∧
      (dc_2d_gate_sweep cfg ch1 ch2 a1 b1 a2 b2 n1 n2 s).1.dmmCloses = s.dmmCloses + 1) := by
  constructor
  · intro cfg ch minV maxV steps s hch hda hdm
    have hbody : dc_1d_body cfg ch minV maxV steps s = (s, [], Except.error ()) := by
      simp [dc_1d_body, hch]
    obtain ⟨c1, c2, c3, _, _⟩ := close_connections_open s hda hdm
    rw [dc_1d_gate_sweep, exception_handler_error _ s () (by rw [hbody])]
    rw [hbody]
    exact ⟨rfl, by simpa using c1, c2, c3⟩
  · intro cfg ch1 ch2 a1 b1 a2 b2 n1 n2 s hch hda hdm
    have hbody : dc_2d_body cfg ch1 ch2 a1 b1 a2 b2 n1 n2 s = (s, [], Except.error ()) := by
      simp only [dc_2d_body, if_neg hch]
    obtain ⟨c1, c2, c3, _, _⟩ := close_connections_open s hda hdm
    rw [dc_2d_gate_sweep, exception_handler_error _ s () (by rw [hbody])]
    rw [hbody]
    exact ⟨rfl, by simpa using c1, c2, c3⟩

/-- C7 witness: the amended theorem applied to the concrete runs: channel 3
swept against `connected_channels = [1, 2]` (1-D), and channels 3, 1 (2-D). -/
theorem claim_C7_witness :
    (3 : Chan) ∉ cfgC.connected_channels ∧
    ((dc_1d_gate_sweep cfgC 3 0 1 5 devOpen).2.2 = none ∧
     (dc_1d_gate_sweep cfgC 3 0 1 5 devOpen).2.1 = [Event.closeDac, Event.closeDmm] ∧
     (dc_1d_gate_sweep cfgC 3 0 1 5 devOpen).1.dacCloses = devOpen.dacCloses + 1 ∧
     (dc_1d_gate_sweep cfgC 3 0 1 5 devOpen).1.dmmCloses = devOpen.dmmCloses + 1) ∧
    ((dc_2d_gate_sweep cfgC 3 1 0 1 0 1 2 2 devOpen).2.2 = none ∧
     (dc_2d_gate_sweep cfgC 3 1 0 1 0 1 2 2 devOpen).2.1
       = [Event.closeDac, Event.closeDmm] ∧
     (dc_2d_gate_sweep cfgC 3 1 0 1 0 1 2 2 devOpen).1.dacCloses = devOpen.dacCloses + 1 ∧
     (dc_2d_gate_sweep cfgC 3 1 0 1 0 1 2 2 devOpen).1.dmmCloses = devOpen.dmmCloses + 1) := by
  refine ⟨by decide, ?_, ?_⟩
  · exact claim_C7.1 cfgC 3 0 1 5 devOpen (by decide) rfl rfl
  · exact claim_C7.2 cfgC 3 1 0 1 0 1 2 2 devOpen (by decide) rfl rfl

/-- C2: the claim is false on the code: with the meter raising on its second
read (`meterFailAfterOne`), the 1-D sweep body does raise internally
(`Except.error`), but `exception_handler_general` swallows it: the decorated
sweep call returns `None` (a normal return — nothing is re-raised) after a
single `close_connections` attempt (both close counters go to 1).  Note also
that no ramp-to-zero teardown happens on this path. -/
theorem claim_C2_counterexample :
    (dc_1d_body cfgAB 1 0 1 3 devOpen).2.2 = Except.error () ∧
    (dc_1d_gate_sweep cfgAB 1 0 1 3 devOpen).2.2 = none ∧
    (dc_1d_gate_sweep cfgAB 1 0 1 3 devOpen).1.dacCloses = 1 ∧
    (dc_1d_gate_sweep cfgAB 1 0 1 3 devOpen).1.dmmCloses = 1 := by
  refine ⟨?_, ?_, ?_, ?_⟩ <;>
    norm_num [dc_1d_gate_sweep, dc_1d_body, exception_handler_general, sweep1dLoop,
      set_channel_voltage_one, ramp_voltages, applyRamp, registration, linspace,
      List.range_succ, waiting_time, close_connections, meterFailAfterOne, cfgAB, devOpen,
      Function.update]

/-- C2 (amended): when the meter raises partway through a 1-D sweep (first
fault at read `k < steps`), the error propagates out of the measurement loop
to `exception_handler_general`, which performs exactly one
`close_connections` attempt (both connections closed, trace ends with the two
close events) and returns `None`: the original error is swallowed, not
re-raised to the caller. -/
theorem claim_C2 (cfg : DeviceCfg) (ch : Chan) (minV maxV : ℚ) (steps : Nat)
    (s : DevState) (k : Nat) (hch : ch ∈ cfg.connected_channels)
    (hda : s.dacOpen = true) (hdm : s.dmmOpen = true) (hk : k < steps)
    (herr : cfg.meter (s.meterIdx + k) = Except.error ())
    (hok : ∀ j, j < k → ∃ g, cfg.meter (s.meterIdx + j) = Except.ok g) :
    (dc_1d_gate_sweep cfg ch minV maxV steps s).2.2 = none ∧
    (dc_1d_gate_sweep cfg ch minV maxV steps s).1.dacCloses = s.dacCloses + 1 ∧
    (dc_1d_gate_sweep cfg ch minV maxV steps s).1.dmmCloses = s.dmmCloses + 1 ∧
    ∃ pre, (dc_1d_gate_sweep cfg ch minV maxV steps s).2.1
      = pre ++ [Event.closeDac, Event.closeDmm] := by
  obtain ⟨b1, b2, b3, b4, b5, _⟩ := dc_1d_body_error cfg ch minV maxV steps s k hch hk herr hok
  obtain ⟨c1, c2, c3, _, _⟩ :=
    close_connections_open (dc_1d_body cfg ch minV maxV steps s).1
      (by rw [b2]; exact hda) (by rw [b3]; exact hdm)
  rw [dc_1d_gate_sweep, exception_handler_error _ s () b1]
  refine ⟨rfl, ?_, ?_, ⟨(dc_1d_body cfg ch minV maxV steps s).2.1, ?_⟩⟩
  · rw [c2, b4]
  · rw [c3, b5]
  · rw [c1]

/-- C2 witness: the amended theorem applied to the concrete faulting run
(meter errors on its second read, `k = 1`, during a 3-step sweep). -/
theorem claim_C2_witness :
    (1 : Chan) ∈ cfgAB.connected_channels ∧ (1 : Nat) < 3 ∧
    cfgAB.meter (devOpen.meterIdx + 1) = Except.error () ∧
    ((dc_1d_gate_sweep cfgAB 1 0 1 3 devOpen).2.2 = none ∧
     (dc_1d_gate_sweep cfgAB 1 0 1 3 devOpen).1.dacCloses = devOpen.dacCloses + 1 ∧
     (dc_1d_gate_sweep cfgAB 1 0 1 3 devOpen).1.dmmCloses = devOpen.dmmCloses + 1 ∧
     ∃ pre, (dc_1d_gate_sweep cfgAB 1 0 1 3 devOpen).2.1
       = pre ++ [Event.closeDac, Event.closeDmm]) := by
  refine ⟨by decide, by decide, rfl, ?_⟩
  refine claim_C2 cfgAB 1 0 1 3 devOpen 1 (by decide) rfl rfl (by decide) rfl ?_
  intro j hj
  have : j = 0 := by omega
  subst this
  exact ⟨2, rfl⟩

/-- C4: confirmed.  For a fault-free 1-D sweep with `steps ≥ 2`: the setpoint
sequence `np.linspace(min, max, steps)` has exactly `steps` elements, evenly
spaced, first `= start` and last `= stop`; exactly one measurement row is
emitted per setpoint, carrying that setpoint in the swept channel's slot and
the corresponding meter reading in the trailing slot; and the run ends with a
batched `set_channel_voltage` of every connected channel to `0.0` (all
connected channels read back `0` afterwards). -/
theorem claim_C4 (cfg : DeviceCfg) (mval : Nat → ℚ)
    (hm : ∀ k, cfg.meter k = Except.ok (mval k)) (ch : Chan) (minV maxV : ℚ) (steps : Nat)
    (s : DevState) (hch : ch ∈ cfg.connected_channels) (h2 : 2 ≤ steps)
    (hmi : s.meterIdx = 0) :
    (linspace minV maxV steps).length = steps ∧
    (linspace minV maxV steps)[0]? = some minV ∧
    (linspace minV maxV steps)[steps - 1]? = some maxV ∧
    (∀ i, i + 1 < steps → ∃ x y, (linspace minV maxV steps)[i]? = some x ∧
      (linspace minV maxV steps)[i + 1]? = some y ∧
      y - x = (maxV - minV) / ((steps : ℚ) - 1)) ∧
    (emittedSamples (dc_1d_gate_sweep cfg ch minV maxV steps s).2.1).length = steps ∧
    (∀ i, i < steps →
      ∃ row, (emittedSamples (dc_1d_gate_sweep cfg ch minV maxV steps s).2.1)[i]? = some row ∧
        row[cfg.connected_channels.indexOf ch]?
          = some (some (ParamId.chanV ch,
              minV + (i : ℚ) * ((maxV - minV) / ((steps : ℚ) - 1)))) ∧
        row[cfg.connected_channels.length]? = some (some (ParamId.dmmVolt, mval i))) ∧
    (dc_1d_gate_sweep cfg ch minV maxV steps s).2.2 = some () ∧
    (∀ c ∈ cfg.connected_channels, (dc_1d_gate_sweep cfg ch minV maxV steps s).1.volt c = 0) ∧
    (∃ pre s1, (dc_1d_gate_sweep cfg ch minV maxV steps s).2.1
      = pre ++ (set_channel_voltage_many s1 cfg.connected_channels
                  (List.replicate cfg.connected_channels.length 0)).2) := by
  obtain ⟨o1, o2, o3, o4, _⟩ := dc_1d_ok cfg mval hm ch minV maxV steps s hch
  have hsi : cfg.connected_channels.indexOf ch < cfg.connected_channels.length :=
    List.indexOf_lt_length.2 hch
  have hbl : cfg.connected_channels.indexOf ch
      < (registration s cfg.connected_channels [ch]).2.length := by
    rw [registration_length]
    omega
  have hll : cfg.connected_channels.length
      < (registration s cfg.connected_channels [ch]).2.length := by
    rw [registration_length]
    omega
  refine ⟨linspace_length minV maxV steps, linspace_first minV maxV steps (by omega),
    linspace_last minV maxV steps h2, fun i hi => linspace_spacing minV maxV steps i hi,
    ?_, ?_, o1, o3, o4⟩
  · rw [o2, expected1d_length, linspace_length]
  · intro i hi
    have hvs : i < (linspace minV maxV steps).length := by rw [linspace_length]; exact hi
    have hval : (linspace minV maxV steps)[i]
        = minV + (i : ℚ) * ((maxV - minV) / ((steps : ℚ) - 1)) := by
      have := linspace_getElem minV maxV steps i hi
      rwa [List.getElem?_eq_getElem hvs, Option.some_inj] at this
    refine ⟨sampleAt (registration s cfg.connected_channels [ch]).2
        (cfg.connected_channels.indexOf ch) cfg.connected_channels.length ch
        ((linspace minV maxV steps)[i]) (mval (s.meterIdx + i)), ?_, ?_, ?_⟩
    · rw [o2]
      exact expected1d_getElem _ _ _ _ _ _ _ i hvs
    · rw [sampleAt_get_si _ _ _ _ _ _ (Nat.ne_of_lt hsi) hbl, hval]
    · rw [sampleAt_get_li _ _ _ _ _ _ hll, hmi, Nat.zero_add]

/-- C4 witness: the spec's scenario — channel 3 swept from 0 to 1 in 5 steps
against `connected_channels = [3]` with a meter constantly reading `2.0`:
5 rows, swept values `0, 1/4, 1/2, 3/4, 1`, each paired with `2`. -/
theorem claim_C4_witness :
    (3 : Chan) ∈ cfgSingle3.connected_channels ∧ 2 ≤ 5 ∧
    (emittedSamples (dc_1d_gate_sweep cfgSingle3 3 0 1 5 devOpen).2.1).length = 5 ∧
    (∀ i : Nat, i < 5 →
      ∃ row, (emittedSamples (dc_1d_gate_sweep cfgSingle3 3 0 1 5 devOpen).2.1)[i]? = some row ∧
        row[cfgSingle3.connected_channels.indexOf 3]?
          = some (some (ParamId.chanV 3, 0 + (i : ℚ) * ((1 - 0) / (((5 : Nat) : ℚ) - 1)))) ∧
        row[cfgSingle3.connected_channels.length]? = some (some (ParamId.dmmVolt, 2))) ∧
    (∀ c ∈ cfgSingle3.connected_channels,
      (dc_1d_gate_sweep cfgSingle3 3 0 1 5 devOpen).1.volt c = 0) := by
  obtain ⟨_, _, _, _, h5, h6, _, h8, _⟩ :=
    claim_C4 cfgSingle3 (fun _ => 2) (fun _ => rfl) 3 0 1 5 devOpen (by decide) (by decide) rfl
  exact ⟨by decide, by decide, h5, h6, h8⟩

lemma sweep2dInnerLoop_ok (meter : Nat → Except Unit ℚ) (mval : Nat → ℚ)
    (hm : ∀ k, meter k = Except.ok (mval k)) (int_time : ℚ) (ch2 : Chan) (c2 l : Nat)
    (hne : c2 ≠ l) :
    ∀ (vs : List ℚ) (base : List (Option (ParamId × ℚ))) (s : DevState),
      (∃ payload, (sweep2dInnerLoop meter int_time ch2 c2 l vs base s).2.2
          = Except.ok payload ∧
        (payload = base ∨ ∃ p q, payload = (base.set c2 p).set l q)) ∧
      emittedSamples (sweep2dInnerLoop meter int_time ch2 c2 l vs base s).2.1
        = expected1d base c2 l ch2 mval vs s.meterIdx ∧
      (∀ x, x ≠ ch2 → (sweep2dInnerLoop meter int_time ch2 c2 l vs base s).1.volt x = s.volt x) ∧
      (sweep2dInnerLoop meter int_time ch2 c2 l vs base s).1.meterIdx
        = s.meterIdx + vs.length ∧
      (sweep2dInnerLoop meter int_time ch2 c2 l vs base s).1.dacOpen = s.dacOpen ∧
      (sweep2dInnerLoop meter int_time ch2 c2 l vs base s).1.dmmOpen = s.dmmOpen ∧
      (sweep2dInnerLoop meter int_time ch2 c2 l vs base s).1.dacCloses = s.dacCloses ∧
      (sweep2dInnerLoop meter int_time ch2 c2 l vs base s).1.dmmCloses = s.dmmCloses ∧
      progressTrace (sweep2dInnerLoop meter int_time ch2 c2 l vs base s).2.1
        = List.replicate vs.length Event.innerUpdate ∧
      (∀ e ∈ (sweep2dInnerLoop meter int_time ch2 c2 l vs base s).2.1,
        ∀ chans fs ts d, e = Event.rampCall chans fs ts d → chans = [ch2]) := by
  intro vs
  induction vs with
  | nil =>
      intro base s
      exact ⟨⟨base, rfl, Or.inl rfl⟩, by simp [sweep2dInnerLoop, expected1d],
        fun x _ => rfl, by simp [sweep2dInnerLoop], rfl, rfl, rfl, rfl, rfl, by simp [sweep2dInnerLoop]⟩
  | cons v rest ih =>
      intro base s
      obtain ⟨⟨payload, ihp, ihd⟩, ih2, ih3, ih4, ih5, ih6, ih7, ih8, ih9, ih10⟩ :=
        ih ((base.set c2 (some (ParamId.chanV ch2, v))).set l
              (some (ParamId.dmmVolt, mval s.meterIdx)))
          ⟨Function.update s.volt ch2 v, s.dacOpen, s.dmmOpen, s.dacCloses, s.dmmCloses,
            s.meterIdx + 1⟩
      simp only [sweep2dInnerLoop, set_one_meterIdx, hm]
      simp only [set_one_events, set_one_volt, set_one_dacOpen, set_one_dmmOpen,
        set_one_dacCloses, set_one_dmmCloses, set_one_meterIdx]
      refine ⟨⟨payload, ihp, ?_⟩, ?_, ?_, ?_, ?_, ?_, ?_, ?_, ?_, ?_⟩
      · rcases ihd with h | ⟨p, q, h⟩
        · exact Or.inr ⟨some (ParamId.chanV ch2, v), some (ParamId.dmmVolt, mval s.meterIdx), h⟩
        · exact Or.inr ⟨p, q, by rw [h, set2_collapse base c2 l hne]⟩
      · simp only [List.cons_append, List.nil_append, emittedSamples_cons_getV,
          emittedSamples_cons_rampCall, emittedSamples_cons_sleep,
          emittedSamples_cons_innerUpdate, emittedSamples_cons_meterRead,
          emittedSamples_cons_addResult]
        rw [ih2]
        simp [expected1d, sampleAt, expected1d_base_set base c2 l hne]
      · intro x hx
        rw [ih3 x hx]
        exact Function.update_noteq hx v s.volt
      · rw [ih4]
        simp
        omega
      · rw [ih5]
      · rw [ih6]
      · rw [ih7]
      · rw [ih8]
      · simp only [List.cons_append, List.nil_append, progressTrace_cons_getV,
          progressTrace_cons_rampCall, progressTrace_cons_sleep,
          progressTrace_cons_innerUpdate, progressTrace_cons_meterRead,
          progressTrace_cons_addResult]
        rw [ih9]
        simp [List.replicate_succ]
      · intro e he chans fs ts d hd
        subst hd
        simp only [List.cons_append, List.nil_append, List.mem_cons] at he
        rcases he with h1 | h1 | h1 | h1 | h1 | h1 | h1 | h1
        · exact absurd h1 (by simp)
        · rw [Event.rampCall.injEq] at h1
          exact h1.1
        · exact absurd h1 (by simp)
        · exact absurd h1 (by simp)
        · exact absurd h1 (by simp)
        · exact absurd h1 (by simp)
        · exact absurd h1 (by simp)
        · exact ih10 _ h1 chans fs ts d rfl

lemma rampCallsTo_eq_zero (c : Chan) (ev : List Event)
    (h : ∀ chans fs ts d, Event.rampCall chans fs ts d ∈ ev → chans ≠ [c]) :
    rampCallsTo c ev = 0 := by
  induction ev with
  | nil => rfl
  | cons e t ih =>
      have ht : ∀ chans fs ts d, Event.rampCall chans fs ts d ∈ t → chans ≠ [c] :=
        fun chans fs ts d hm => h chans fs ts d (List.mem_cons_of_mem _ hm)
      cases e with
      | rampCall chans fs ts d =>
          rw [rampCallsTo_cons_rampCall,
            if_neg (h chans fs ts d (List.mem_cons_self _ _)), ih ht, Nat.zero_add]
      | getV c' v => rw [rampCallsTo_cons_getV, ih ht]
      | sleep t' => rw [rampCallsTo_cons_sleep, ih ht]
      | meterRead v => rw [rampCallsTo_cons_meterRead, ih ht]
      | addResult r => rw [rampCallsTo_cons_addResult, ih ht]
      | outerUpdate => rw [rampCallsTo_cons_outerUpdate, ih ht]
      | innerUpdate => rw [rampCallsTo_cons_innerUpdate, ih ht]
      | innerReset => rw [rampCallsTo_cons_innerReset, ih ht]
      | closeDac => rw [rampCallsTo_cons_closeDac, ih ht]
      | closeDmm => rw [rampCallsTo_cons_closeDmm, ih ht]

lemma expected2d_base_irrel (c1 c2 l : Nat) (ch1 ch2 : Chan) (mval : Nat → ℚ) (vs : List ℚ)
    (hc1c2 : c1 ≠ c2) (hc1l : c1 ≠ l) (hc2l : c2 ≠ l) :
    ∀ (os : List ℚ) (k : Nat) (X : List (Option (ParamId × ℚ)))
      (o p q : Option (ParamId × ℚ)),
      expected2d (((X.set c1 o).set c2 p).set l q) c1 c2 l ch1 ch2 mval vs os k
        = expected2d X c1 c2 l ch1 ch2 mval vs os k ∧
      expected2d (X.set c1 o) c1 c2 l ch1 ch2 mval vs os k
        = expected2d X c1 c2 l ch1 ch2 mval vs os k := by
  intro os
  induction os with
  | nil => intro k X o p q; exact ⟨rfl, rfl⟩
  | cons o2 orest ih =>
      intro k X o p q
      constructor
      · simp only [expected2d]
        have hb : (((X.set c1 o).set c2 p).set l q).set c1 (some (ParamId.chanV ch1, o2))
            = ((X.set c1 (some (ParamId.chanV ch1, o2))).set c2 p).set l q := by
          rw [List.set_comm q _ _ (Ne.symm hc1l), List.set_comm p _ _ (Ne.symm hc1c2),
            List.set_set]
        rw [hb, expected1d_base_set _ c2 l hc2l, (ih (k + vs.length) X o p q).1]
      · simp only [expected2d]
        rw [List.set_set, (ih (k + vs.length) X o p q).2]

lemma set_one_state (s : DevState) (c : Chan) (v : ℚ) :
    (set_channel_voltage_one s c v).1
      = ⟨Function.update s.volt c v, s.dacOpen, s.dmmOpen, s.dacCloses, s.dmmCloses,
         s.meterIdx⟩ := rfl

lemma sweep2dOuterLoop_ok (meter : Nat → Except Unit ℚ) (mval : Nat → ℚ)
    (hm : ∀ k, meter k = Except.ok (mval k)) (int_time : ℚ) (ch1 ch2 : Chan) (c1 c2 l : Nat)
    (h12 : ch1 ≠ ch2) (hc1c2 : c1 ≠ c2) (hc1l : c1 ≠ l) (hc2l : c2 ≠ l) (vs : List ℚ) :
    ∀ (os : List ℚ) (base : List (Option (ParamId × ℚ))) (s : DevState),
      (∃ payload, (sweep2dOuterLoop meter int_time ch1 ch2 c1 c2 l vs os base s).2.2
          = Except.ok payload) ∧
      emittedSamples (sweep2dOuterLoop meter int_time ch1 ch2 c1 c2 l vs os base s).2.1
        = expected2d base c1 c2 l ch1 ch2 mval vs os s.meterIdx ∧
      (∀ x, x ≠ ch1 → x ≠ ch2 →
        (sweep2dOuterLoop meter int_time ch1 ch2 c1 c2 l vs os base s).1.volt x = s.volt x) ∧
      (sweep2dOuterLoop meter int_time ch1 ch2 c1 c2 l vs os base s).1.meterIdx
        = s.meterIdx + os.length * vs.length ∧
      (sweep2dOuterLoop meter int_time ch1 ch2 c1 c2 l vs os base s).1.dacOpen = s.dacOpen ∧
      (sweep2dOuterLoop meter int_time ch1 ch2 c1 c2 l vs os base s).1.dmmOpen = s.dmmOpen ∧
      (sweep2dOuterLoop meter int_time ch1 ch2 c1 c2 l vs os base s).1.dacCloses = s.dacCloses ∧
      (sweep2dOuterLoop meter int_time ch1 ch2 c1 c2 l vs os base s).1.dmmCloses = s.dmmCloses ∧
      progressTrace (sweep2dOuterLoop meter int_time ch1 ch2 c1 c2 l vs os base s).2.1
        = (List.replicate os.length
            ([Event.outerUpdate, Event.innerReset]
              ++ List.replicate vs.length Event.innerUpdate)).flatten ∧
      rampCallsTo ch1 (sweep2dOuterLoop meter int_time ch1 ch2 c1 c2 l vs os base s).2.1
        = os.length ∧
      (∀ e ∈ (sweep2dOuterLoop meter int_time ch1 ch2 c1 c2 l vs os base s).2.1,
        ∀ chans fs ts d, e = Event.rampCall chans fs ts d →
          chans = [ch1] ∨ chans = [ch2]) := by
  intro os
  induction os with
  | nil =>
      intro base s
      refine ⟨⟨base, rfl⟩, rfl, fun x _ _ => rfl, by simp [sweep2dOuterLoop], rfl, rfl, rfl,
        rfl, rfl, rfl, by simp [sweep2dOuterLoop]⟩
  | cons o orest ih =>
      intro base s
      obtain ⟨⟨pl, ihp, ihd⟩, i2, i3, i4, i5, i6, i7, i8, i9, i10⟩ :=
        sweep2dInnerLoop_ok meter mval hm int_time ch2 c2 l hc2l vs
          (base.set c1 (some (ParamId.chanV ch1, o)))
          ⟨Function.update s.volt ch1 o, s.dacOpen, s.dmmOpen, s.dacCloses, s.dmmCloses,
            s.meterIdx⟩
      obtain ⟨⟨pl2, jhp⟩, j2, j3, j4, j5, j6, j7, j8, j9, j10, j11⟩ :=
        ih pl
          (sweep2dInnerLoop meter int_time ch2 c2 l vs
            (base.set c1 (some (ParamId.chanV ch1, o)))
            ⟨Function.update s.volt ch1 o, s.dacOpen, s.dmmOpen, s.dacCloses, s.dmmCloses,
              s.meterIdx⟩).1
      simp only [sweep2dOuterLoop, set_one_events, set_one_state, ihp]
      refine ⟨⟨pl2, jhp⟩, ?_, ?_, ?_, ?_, ?_, ?_, ?_, ?_, ?_, ?_⟩
      · simp only [List.cons_append, List.nil_append, emittedSamples_cons_getV,
          emittedSamples_cons_rampCall, emittedSamples_cons_sleep,
          emittedSamples_cons_outerUpdate, emittedSamples_cons_innerReset,
          emittedSamples_append]
        rw [i2, j2, i4]
        simp only [DevState.meterIdx]
        have hP : expected2d pl c1 c2 l ch1 ch2 mval vs orest (s.meterIdx + vs.length)
            = expected2d base c1 c2 l ch1 ch2 mval vs orest (s.meterIdx + vs.length) := by
          rcases ihd with h | ⟨p, q, h⟩
          · rw [h]
            exact (expected2d_base_irrel c1 c2 l ch1 ch2 mval vs hc1c2 hc1l hc2l orest
              (s.meterIdx + vs.length) base (some (ParamId.chanV ch1, o)) none none).2
          · rw [h]
            exact (expected2d_base_irrel c1 c2 l ch1 ch2 mval vs hc1c2 hc1l hc2l orest
              (s.meterIdx + vs.length) base (some (ParamId.chanV ch1, o)) p q).1
        rw [hP]
        rfl
      · intro x hx1 hx2
        rw [j3 x hx1 hx2, i3 x hx2]
        exact Function.update_noteq hx1 o s.volt
      · rw [j4, i4]
        simp only [DevState.meterIdx, List.length_cons]
        rw [Nat.succ_mul]
        omega
      · rw [j5, i5]
      · rw [j6, i6]
      · rw [j7, i7]
      · rw [j8, i8]
      · simp only [List.cons_append, List.nil_append, progressTrace_cons_getV,
          progressTrace_cons_rampCall, progressTrace_cons_sleep,
          progressTrace_cons_outerUpdate, progressTrace_cons_innerReset,
          progressTrace_append]
        rw [i9, j9]
        simp [List.replicate_succ]
      · simp only [List.cons_append, List.nil_append, rampCallsTo_cons_getV,
          rampCallsTo_cons_rampCall, rampCallsTo_cons_sleep, rampCallsTo_cons_outerUpdate,
          rampCallsTo_cons_innerReset, rampCallsTo_append]
        rw [j10,
          rampCallsTo_eq_zero ch1 _ (fun chans fs ts d hmem => by
            rw [i10 _ hmem chans fs ts d rfl]
            simp [Ne.symm h12])]
        simp [Nat.add_comm]
      · intro e he chans fs ts d hd
        subst hd
        simp only [List.cons_append, List.nil_append, List.mem_cons, List.mem_append] at he
        rcases he with h1 | h1 | h1 | h1 | h1 | h1 | h1
        · exact absurd h1 (by simp)
        · rw [Event.rampCall.injEq] at h1
          exact Or.inl h1.1
        · exact absurd h1 (by simp)
        · exact absurd h1 (by simp)
        · exact absurd h1 (by simp)
        · exact Or.inr (i10 _ h1 chans fs ts d rfl)
        · exact j11 _ h1 chans fs ts d rfl

lemma expected2d_length (base : List (Option (ParamId × ℚ))) (c1 c2 l : Nat)
    (ch1 ch2 : Chan) (mval : Nat → ℚ) (vs : List ℚ) :
    ∀ (os : List ℚ) (k : Nat),
      (expected2d base c1 c2 l ch1 ch2 mval vs os k).length = os.length * vs.length := by
  intro os
  induction os with
  | nil => intro k; simp [expected2d]
  | cons o orest ih =>
      intro k
      simp only [expected2d, List.length_append, expected1d_length, ih, List.length_cons]
      rw [Nat.succ_mul]
      omega

lemma expected2d_getElem (base : List (Option (ParamId × ℚ))) (c1 c2 l : Nat)
    (ch1 ch2 : Chan) (mval : Nat → ℚ) (vs : List ℚ) :
    ∀ (os : List ℚ) (k i j : Nat) (hi : i < os.length) (hj : j < vs.length),
      (expected2d base c1 c2 l ch1 ch2 mval vs os k)[i * vs.length + j]?
        = some (sampleAt (base.set c1 (some (ParamId.chanV ch1, os[i]))) c2 l ch2
            (vs[j]) (mval (k + i * vs.length + j))) := by
  intro os
  induction os with
  | nil =>
      intro k i j hi
      exact absurd hi (by simp)
  | cons o orest ih =>
      intro k i j hi hj
      cases i with
      | zero =>
          simp only [expected2d, Nat.zero_mul, Nat.zero_add, List.getElem_cons_zero]
          rw [List.getElem?_append_left (by rw [expected1d_length]; exact hj),
            expected1d_getElem _ _ _ _ _ _ _ j hj]
          rw [Nat.add_zero]
      | succ i0 =>
          have hi0 : i0 < orest.length := by simpa using Nat.lt_of_succ_lt_succ hi
          have hgeq : (expected1d (base.set c1 (some (ParamId.chanV ch1, o))) c2 l ch2
              mval vs k).length ≤ (i0 + 1) * vs.length + j := by
            rw [expected1d_length, Nat.succ_mul]
            omega
          simp only [expected2d, List.getElem_cons_succ]
          rw [List.getElem?_append_right hgeq, expected1d_length]
          have hidx : (i0 + 1) * vs.length + j - vs.length = i0 * vs.length + j := by
            rw [Nat.succ_mul]
            omega
          rw [hidx, ih (k + vs.length) i0 j hi0 hj]
          have harith : k + vs.length + i0 * vs.length + j
              = k + (i0 + 1) * vs.length + j := by
            rw [Nat.succ_mul]
            omega
          rw [harith]

lemma dc_2d_body_ok (cfg : DeviceCfg) (mval : Nat → ℚ)
    (hm : ∀ k, cfg.meter k = Except.ok (mval k)) (ch1 ch2 : Chan)
    (minV1 maxV1 minV2 maxV2 : ℚ) (steps1 steps2 : Nat) (s : DevState)
    (h1 : ch1 ∈ cfg.connected_channels) (h2 : ch2 ∈ cfg.connected_channels)
    (h12 : ch1 ≠ ch2) :
    (dc_2d_body cfg ch1 ch2 minV1 maxV1 minV2 maxV2 steps1 steps2 s).2.2 = Except.ok () ∧
    emittedSamples (dc_2d_body cfg ch1 ch2 minV1 maxV1 minV2 maxV2 steps1 steps2 s).2.1
      = expected2d (registration s cfg.connected_channels [ch1, ch2]).2
          (cfg.connected_channels.indexOf ch1) (cfg.connected_channels.indexOf ch2)
          cfg.connected_channels.length ch1 ch2 mval
          (linspace minV2 maxV2 steps2) (linspace minV1 maxV1 steps1) s.meterIdx ∧
    (∀ c ∈ cfg.connected_channels,
      (dc_2d_body cfg ch1 ch2 minV1 maxV1 minV2 maxV2 steps1 steps2 s).1.volt c = 0) ∧
    (∃ pre s1, (dc_2d_body cfg ch1 ch2 minV1 maxV1 minV2 maxV2 steps1 steps2 s).2.1
      = pre ++ (set_channel_voltage_many s1 cfg.connected_channels
                  (List.replicate cfg.connected_channels.length 0)).2) ∧
    progressTrace (dc_2d_body cfg ch1 ch2 minV1 maxV1 minV2 maxV2 steps1 steps2 s).2.1
      = (List.replicate steps1
          ([Event.outerUpdate, Event.innerReset]
            ++ List.replicate steps2 Event.innerUpdate)).flatten ∧
    rampCallsTo ch1 (dc_2d_body cfg ch1 ch2 minV1 maxV1 minV2 maxV2 steps1 steps2 s).2.1
      = steps1 ∧
    (∀ e ∈ (dc_2d_body cfg ch1 ch2 minV1 maxV1 minV2 maxV2 steps1 steps2 s).2.1,
      ∀ chans fs ts d, e = Event.rampCall chans fs ts d →
        chans = [ch1] ∨ chans = [ch2] ∨ chans = cfg.connected_channels) := by
  have hlt1 : cfg.connected_channels.indexOf ch1 < cfg.connected_channels.length :=
    List.indexOf_lt_length.2 h1
  have hlt2 : cfg.connected_channels.indexOf ch2 < cfg.connected_channels.length :=
    List.indexOf_lt_length.2 h2
  have hc1c2 : cfg.connected_channels.indexOf ch1 ≠ cfg.connected_channels.indexOf ch2 := by
    intro hc
    apply h12
    have e1 := List.getElem_indexOf hlt1
    have e2 := List.getElem_indexOf hlt2
    rw [← e1, ← e2]
    congr 1
  have hnotsingle : cfg.connected_channels ≠ [ch1] := by
    intro hc
    rw [hc] at h2
    simp only [List.mem_singleton] at h2
    exact h12 h2.symm
  obtain ⟨⟨pl, hpl⟩, o2, o3, o4, o5, o6, o7, o8, o9, o10, o11⟩ :=
    sweep2dOuterLoop_ok cfg.meter mval hm (cfg.nplc / 50) ch1 ch2
      (cfg.connected_channels.indexOf ch1) (cfg.connected_channels.indexOf ch2)
      cfg.connected_channels.length h12 hc1c2 (Nat.ne_of_lt hlt1) (Nat.ne_of_lt hlt2)
      (linspace minV2 maxV2 steps2) (linspace minV1 maxV1 steps1)
      (registration s cfg.connected_channels [ch1, ch2]).2 s
  simp only [dc_2d_body, if_pos (And.intro h1 h2), hpl]
  refine ⟨trivial, ?_, ?_, ?_, ?_, ?_, ?_⟩
  · simp only [emittedSamples_append, o2,
      emittedSamples_of_getV _ (registration_events_shape s cfg.connected_channels [ch1, ch2]),
      set_many_events, emittedSamples_of_getV _ (map_getV_shape cfg.connected_channels _),
      emittedSamples_cons_rampCall, emittedSamples_cons_sleep, emittedSamples_nil]
    simp
  · intro c hc
    simp only [set_many_volt]
    exact applyRamp_zip_zero cfg.connected_channels _ c hc
  · exact ⟨(registration s cfg.connected_channels [ch1, ch2]).1 ++
        (sweep2dOuterLoop cfg.meter (cfg.nplc / 50) ch1 ch2
          (cfg.connected_channels.indexOf ch1) (cfg.connected_channels.indexOf ch2)
          cfg.connected_channels.length (linspace minV2 maxV2 steps2)
          (linspace minV1 maxV1 steps1)
          (registration s cfg.connected_channels [ch1, ch2]).2 s).2.1,
      (sweep2dOuterLoop cfg.meter (cfg.nplc / 50) ch1 ch2
          (cfg.connected_channels.indexOf ch1) (cfg.connected_channels.indexOf ch2)
          cfg.connected_channels.length (linspace minV2 maxV2 steps2)
          (linspace minV1 maxV1 steps1)
          (registration s cfg.connected_channels [ch1, ch2]).2 s).1,
      by rw [List.append_assoc]⟩
  · simp only [progressTrace_append, o9,
      progressTrace_of_getV _ (registration_events_shape s cfg.connected_channels [ch1, ch2]),
      set_many_events, progressTrace_of_getV _ (map_getV_shape cfg.connected_channels _),
      progressTrace_cons_rampCall, progressTrace_cons_sleep, progressTrace_nil]
    simp [linspace_length]
  · simp only [rampCallsTo_append, o10,
      rampCallsTo_of_getV _ _ (registration_events_shape s cfg.connected_channels [ch1, ch2]),
      set_many_events, rampCallsTo_of_getV _ _ (map_getV_shape cfg.connected_channels _),
      rampCallsTo_cons_rampCall, rampCallsTo_cons_sleep, rampCallsTo_nil,
      if_neg hnotsingle]
    simp [linspace_length]
  · intro e he chans fs ts d hd
    simp only [List.append_assoc, List.mem_append] at he
    rcases he with he | he | he
    · obtain ⟨c, v, rfl⟩ := registration_events_shape s cfg.connected_channels [ch1, ch2] e he
      cases hd
    · rcases o11 e he chans fs ts d hd with h | h
      · exact Or.inl h
      · exact Or.inr (Or.inl h)
    · simp only [set_many_events, List.mem_append, List.mem_cons] at he
      rcases he with he | he | he | he
      · obtain ⟨c, v, rfl⟩ := map_getV_shape cfg.connected_channels _ e he
        cases hd
      · subst hd
        rw [Event.rampCall.injEq] at he
        exact Or.inr (Or.inr he.1)
      · subst hd
        cases he
      · cases he

lemma dc_2d_ok (cfg : DeviceCfg) (mval : Nat → ℚ)
    (hm : ∀ k, cfg.meter k = Except.ok (mval k)) (ch1 ch2 : Chan)
    (minV1 maxV1 minV2 maxV2 : ℚ) (steps1 steps2 : Nat) (s : DevState)
    (h1 : ch1 ∈ cfg.connected_channels) (h2 : ch2 ∈ cfg.connected_channels)
    (h12 : ch1 ≠ ch2) :
    (dc_2d_gate_sweep cfg ch1 ch2 minV1 maxV1 minV2 maxV2 steps1 steps2 s).2.2 = some () ∧
    emittedSamples (dc_2d_gate_sweep cfg ch1 ch2 minV1 maxV1 minV2 maxV2 steps1 steps2 s).2.1
      = expected2d (registration s cfg.connected_channels [ch1, ch2]).2
          (cfg.connected_channels.indexOf ch1) (cfg.connected_channels.indexOf ch2)
          cfg.connected_channels.length ch1 ch2 mval
          (linspace minV2 maxV2 steps2) (linspace minV1 maxV1 steps1) s.meterIdx ∧
    (∀ c ∈ cfg.connected_channels,
      (dc_2d_gate_sweep cfg ch1 ch2 minV1 maxV1 minV2 maxV2 steps1 steps2 s).1.volt c = 0) ∧
    (∃ pre s1, (dc_2d_gate_sweep cfg ch1 ch2 minV1 maxV1 minV2 maxV2 steps1 steps2 s).2.1
      = pre ++ (set_channel_voltage_many s1 cfg.connected_channels
                  (List.replicate cfg.connected_channels.length 0)).2) ∧
    progressTrace (dc_2d_gate_sweep cfg ch1 ch2 minV1 maxV1 minV2 maxV2 steps1 steps2 s).2.1
      = (List.replicate steps1
          ([Event.outerUpdate, Event.innerReset]
            ++ List.replicate steps2 Event.innerUpdate)).flatten ∧
    rampCallsTo ch1
        (dc_2d_gate_sweep cfg ch1 ch2 minV1 maxV1 minV2 maxV2 steps1 steps2 s).2.1
      = steps1 ∧
    (∀ e ∈ (dc_2d_gate_sweep cfg ch1 ch2 minV1 maxV1 minV2 maxV2 steps1 steps2 s).2.1,
      ∀ chans fs ts d, e = Event.rampCall chans fs ts d →
        chans = [ch1] ∨ chans = [ch2] ∨ chans = cfg.connected_channels) := by
  obtain ⟨b1, b2, b3, b4, b5, b6, b7⟩ :=
    dc_2d_body_ok cfg mval hm ch1 ch2 minV1 maxV1 minV2 maxV2 steps1 steps2 s h1 h2 h12
  rw [dc_2d_gate_sweep, exception_handler_ok _ s () b1]
  exact ⟨rfl, b2, b3, b4, b5, b6, b7⟩

/-- C5: confirmed.  A fault-free 2-D sweep with `m` outer and `n` inner steps
emits exactly `m * n` rows in outer-major order: row `i * n + j` carries outer
setpoint `i` in the outer channel's slot, inner setpoint `j` in the inner
channel's slot, and meter reading `i * n + j` in the trailing slot.  The
outer channel receives exactly `m` dedicated single-channel ramp commands
(once per outer setpoint, not once per sample), and the progress trace is,
for each outer step, one outer update followed by an inner reset and then
`n` inner updates (the inner counter is reset at the start of every outer
iteration). -/
theorem claim_C5 (cfg : DeviceCfg) (mval : Nat → ℚ)
    (hm : ∀ k, cfg.meter k = Except.ok (mval k)) (ch1 ch2 : Chan)
    (minV1 maxV1 minV2 maxV2 : ℚ) (m n : Nat) (s : DevState)
    (h1 : ch1 ∈ cfg.connected_channels) (h2 : ch2 ∈ cfg.connected_channels)
    (h12 : ch1 ≠ ch2) (hmi : s.meterIdx = 0) :
    (emittedSamples
        (dc_2d_gate_sweep cfg ch1 ch2 minV1 maxV1 minV2 maxV2 m n s).2.1).length = m * n ∧
    (∀ i j : Nat, i < m → j < n →
      ∃ row, (emittedSamples
          (dc_2d_gate_sweep cfg ch1 ch2 minV1 maxV1 minV2 maxV2 m n s).2.1)[i * n + j]?
        = some row ∧
        row[cfg.connected_channels.indexOf ch1]?
          = some (some (ParamId.chanV ch1,
              minV1 + (i : ℚ) * ((maxV1 - minV1) / ((m : ℚ) - 1)))) ∧
        row[cfg.connected_channels.indexOf ch2]?
          = some (some (ParamId.chanV ch2,
              minV2 + (j : ℚ) * ((maxV2 - minV2) / ((n : ℚ) - 1)))) ∧
        row[cfg.connected_channels.length]? = some (some (ParamId.dmmVolt, mval (i * n + j)))) ∧
    rampCallsTo ch1 (dc_2d_gate_sweep cfg ch1 ch2 minV1 maxV1 minV2 maxV2 m n s).2.1 = m ∧
    progressTrace (dc_2d_gate_sweep cfg ch1 ch2 minV1 maxV1 minV2 maxV2 m n s).2.1
      = (List.replicate m
          ([Event.outerUpdate, Event.innerReset]
            ++ List.replicate n Event.innerUpdate)).flatten ∧
    (dc_2d_gate_sweep cfg ch1 ch2 minV1 maxV1 minV2 maxV2 m n s).2.2 = some () := by
  obtain ⟨o1, o2, o3, o4, o5, o6, o7⟩ :=
    dc_2d_ok cfg mval hm ch1 ch2 minV1 maxV1 minV2 maxV2 m n s h1 h2 h12
  have hlt1 : cfg.connected_channels.indexOf ch1 < cfg.connected_channels.length :=
    List.indexOf_lt_length.2 h1
  have hlt2 : cfg.connected_channels.indexOf ch2 < cfg.connected_channels.length :=
    List.indexOf_lt_length.2 h2
  have hc1c2 : cfg.connected_channels.indexOf ch1 ≠ cfg.connected_channels.indexOf ch2 := by
    intro hc
    apply h12
    have e1 := List.getElem_indexOf hlt1
    have e2 := List.getElem_indexOf hlt2
    rw [← e1, ← e2]
    congr 1
  have hreg : (registration s cfg.connected_channels [ch1, ch2]).2.length
      = cfg.connected_channels.length + 1 := registration_length s _ _
  refine ⟨?_, ?_, o6, o5, o1⟩
  · rw [o2, expected2d_length, linspace_length, linspace_length]
  · intro i j hi hj
    have hi1 : i < (linspace minV1 maxV1 m).length := by rw [linspace_length]; exact hi
    have hj2 : j < (linspace minV2 maxV2 n).length := by rw [linspace_length]; exact hj
    have hval1 : (linspace minV1 maxV1 m)[i]
        = minV1 + (i : ℚ) * ((maxV1 - minV1) / ((m : ℚ) - 1)) := by
      have := linspace_getElem minV1 maxV1 m i hi
      rwa [List.getElem?_eq_getElem hi1, Option.some_inj] at this
    have hval2 : (linspace minV2 maxV2 n)[j]
        = minV2 + (j : ℚ) * ((maxV2 - minV2) / ((n : ℚ) - 1)) := by
      have := linspace_getElem minV2 maxV2 n j hj
      rwa [List.getElem?_eq_getElem hj2, Option.some_inj] at this
    refine ⟨sampleAt ((registration s cfg.connected_channels [ch1, ch2]).2.set
        (cfg.connected_channels.indexOf ch1)
        (some (ParamId.chanV ch1, (linspace minV1 maxV1 m)[i])))
        (cfg.connected_channels.indexOf ch2) cfg.connected_channels.length ch2
        ((linspace minV2 maxV2 n)[j]) (mval (s.meterIdx + i * n + j)), ?_, ?_, ?_, ?_⟩
    · rw [o2]
      have := expected2d_getElem (registration s cfg.connected_channels [ch1, ch2]).2
        (cfg.connected_channels.indexOf ch1) (cfg.connected_channels.indexOf ch2)
        cfg.connected_channels.length ch1 ch2 mval (linspace minV2 maxV2 n)
        (linspace minV1 maxV1 m) s.meterIdx i j hi1 hj2
      rw [linspace_length] at this
      exact this
    · rw [sampleAt_get_other _ _ _ _ _ _ _ hc1c2 (Nat.ne_of_lt hlt1),
        List.getElem?_set_eq_of_lt _ (by rw [hreg]; omega), hval1]
    · rw [sampleAt_get_si _ _ _ _ _ _ (Nat.ne_of_lt hlt2) (by simp [hreg]; omega), hval2]
    · rw [sampleAt_get_li _ _ _ _ _ _ (by simp [hreg]), hmi, Nat.zero_add]

/-- C5 witness: the spec's scenario — outer channel 1 and inner channel 2,
each swept 0 to 1 in 2 steps, constant meter: 4 rows in outer-major order,
exactly 2 dedicated outer-channel ramp commands, and the progress trace
`outer, reset, inner, inner` twice. -/
theorem claim_C5_witness :
    (1 : Chan) ∈ cfgC.connected_channels ∧ (1 : Chan) ≠ 2 ∧
    (emittedSamples (dc_2d_gate_sweep cfgC 1 2 0 1 0 1 2 2 devOpen).2.1).length = 2 * 2 ∧
    rampCallsTo 1 (dc_2d_gate_sweep cfgC 1 2 0 1 0 1 2 2 devOpen).2.1 = 2 ∧
    progressTrace (dc_2d_gate_sweep cfgC 1 2 0 1 0 1 2 2 devOpen).2.1
      = (List.replicate 2
          ([Event.outerUpdate, Event.innerReset]
            ++ List.replicate 2 Event.innerUpdate)).flatten ∧
    (dc_2d_gate_sweep cfgC 1 2 0 1 0 1 2 2 devOpen).2.2 = some () := by
  obtain ⟨h1, _, h3, h4, h5⟩ :=
    claim_C5 cfgC (fun _ => 2) (fun _ => rfl) 1 2 0 1 0 1 2 2 devOpen (by decide) (by decide)
      (by decide) rfl
  exact ⟨by decide, by decide, h1, h3, h4, h5⟩

lemma close_connections_events (st : DevState) :
    ∀ e ∈ (close_connections st).2, e = Event.closeDac ∨ e = Event.closeDmm := by
  intro e he
  rcases hd1 : st.dacOpen <;> rcases hd2 : st.dmmOpen <;>
    simp [close_connections, hd1, hd2] at he <;> tauto

/-- C1: the claim is false on the code: on the exception exit path nothing is
ramped to zero.  With the meter faulting on its second read, the 1-D sweep
leaves the swept channel (which is in `connected_channels`) at the last
setpoint `1/2 ≠ 0` when control returns to the caller (the decorated call
returns `None`); the handler only closes the connections. -/
theorem claim_C1_counterexample :
    (1 : Chan) ∈ cfgAB.connected_channels ∧
    (dc_1d_gate_sweep cfgAB 1 0 1 3 devOpen).2.2 = none ∧
    (dc_1d_gate_sweep cfgAB 1 0 1 3 devOpen).1.volt 1 = 1/2 ∧
    ((1 : ℚ)/2 ≠ 0) := by
  refine ⟨by decide, ?_, ?_, by norm_num⟩ <;>
    norm_num [dc_1d_gate_sweep, dc_1d_body, exception_handler_general, sweep1dLoop,
      set_channel_voltage_one, ramp_voltages, applyRamp, registration, linspace,
      List.range_succ, waiting_time, close_connections, meterFailAfterOne, cfgAB, devOpen,
      Function.update]

/-- C1 (amended): on normal completion, both sweeps set every channel in
`connected_channels` to `0.0` via one final batched `set_channel_voltage`
call before returning (all connected channels read back `0`); but on the
exception exit path (meter fault mid-sweep) the engine does NOT ramp to zero:
the call returns `None` and every ramp command in its whole trace targets
only the swept channel — no batched all-channel zero set occurs. -/
theorem claim_C1 :
    (∀ (cfg : DeviceCfg) (mval : Nat → ℚ),
      (∀ k, cfg.meter k = Except.ok (mval k)) →
      ∀ (ch : Chan) (minV maxV : ℚ) (steps : Nat) (s : DevState),
        ch ∈ cfg.connected_channels →
        (dc_1d_gate_sweep cfg ch minV maxV steps s).2.2 = some () ∧
        (∀ c ∈ cfg.connected_channels,
          (dc_1d_gate_sweep cfg ch minV maxV steps s).1.volt c = 0) ∧
        (∃ pre s1, (dc_1d_gate_sweep cfg ch minV maxV steps s).2.1
          = pre ++ (set_channel_voltage_many s1 cfg.connected_channels
                      (List.replicate cfg.connected_channels.length 0)).2)) ∧
    (∀ (cfg : DeviceCfg) (mval : Nat → ℚ),
      (∀ k, cfg.meter k = Except.ok (mval k)) →
      ∀ (ch1 ch2 : Chan) (a1 b1 a2 b2 : ℚ) (n1 n2 : Nat) (s : DevState),
        ch1 ∈ cfg.connected_channels → ch2 ∈ cfg.connected_channels → ch1 ≠ ch2 →
        (dc_2d_gate_sweep cfg ch1 ch2 a1 b1 a2 b2 n1 n2 s).2.2 = some () ∧
        (∀ c ∈ cfg.connected_channels,
          (dc_2d_gate_sweep cfg ch1 ch2 a1 b1 a2 b2 n1 n2 s).1.volt c = 0) ∧
        (∃ pre s1, (dc_2d_gate_sweep cfg ch1 ch2 a1 b1 a2 b2 n1 n2 s).2.1
          = pre ++ (set_channel_voltage_many s1 cfg.connected_channels
                      (List.replicate cfg.connected_channels.length 0)).2)) ∧
    (∀ (cfg : DeviceCfg) (ch : Chan) (minV maxV : ℚ) (steps : Nat) (s : DevState) (k : Nat),
      ch ∈ cfg.connected_channels → k < steps →
      cfg.meter (s.meterIdx + k) = Except.error () →
      (∀ j, j < k → ∃ g, cfg.meter (s.meterIdx + j) = Except.ok g) →
      (dc_1d_gate_sweep cfg ch minV maxV steps s).2.2 = none ∧
      (∀ e ∈ (dc_1d_gate_sweep cfg ch minV maxV steps s).2.1,
        ∀ chans fs ts d, e = Event.rampCall chans fs ts d → chans = [ch])) := by
  refine ⟨?_, ?_, ?_⟩
  · intro cfg mval hm ch minV maxV steps s hch
    obtain ⟨o1, _, o3, o4, _⟩ := dc_1d_ok cfg mval hm ch minV maxV steps s hch
    exact ⟨o1, o3, o4⟩
  · intro cfg mval hm ch1 ch2 a1 b1 a2 b2 n1 n2 s h1 h2 h12
    obtain ⟨o1, _, o3, o4, _, _, _⟩ := dc_2d_ok cfg mval hm ch1 ch2 a1 b1 a2 b2 n1 n2 s h1 h2 h12
    exact ⟨o1, o3, o4⟩
  · intro cfg ch minV maxV steps s k hch hk herr hok
    obtain ⟨b1, _, _, _, _, b6⟩ := dc_1d_body_error cfg ch minV maxV steps s k hch hk herr hok
    rw [dc_1d_gate_sweep, exception_handler_error _ s () b1]
    refine ⟨rfl, ?_⟩
    intro e he chans fs ts d hd
    simp only [List.mem_append] at he
    rcases he with he | he
    · exact b6 e he chans fs ts d hd
    · subst hd
      rcases close_connections_events _ _ he with h | h <;> exact absurd h (by simp)

/-- C1 witness: all three parts at concrete runs: a completed 1-D sweep and a
completed 2-D sweep end with every connected channel at `0`, and the faulting
1-D run returns `None` with only single-channel ramp commands in its trace. -/
theorem claim_C1_witness :
    ((dc_1d_gate_sweep cfgSingle3 3 0 1 5 devOpen).2.2 = some () ∧
     (∀ c ∈ cfgSingle3.connected_channels,
        (dc_1d_gate_sweep cfgSingle3 3 0 1 5 devOpen).1.volt c = 0)) ∧
    ((dc_2d_gate_sweep cfgC 1 2 0 1 0 1 2 2 devOpen).2.2 = some () ∧
     (∀ c ∈ cfgC.connected_channels,
        (dc_2d_gate_sweep cfgC 1 2 0 1 0 1 2 2 devOpen).1.volt c = 0)) ∧
    ((dc_1d_gate_sweep cfgAB 1 0 1 3 devOpen).2.2 = none ∧
     (∀ e ∈ (dc_1d_gate_sweep cfgAB 1 0 1 3 devOpen).2.1,
        ∀ chans fs ts d, e = Event.rampCall chans fs ts d → chans = [1])) := by
  obtain ⟨p1, p2, p3⟩ := claim_C1
  refine ⟨?_, ?_, ?_⟩
  · obtain ⟨h1, h2, _⟩ :=
      p1 cfgSingle3 (fun _ => 2) (fun _ => rfl) 3 0 1 5 devOpen (by decide)
    exact ⟨h1, h2⟩
  · obtain ⟨h1, h2, _⟩ :=
      p2 cfgC (fun _ => 2) (fun _ => rfl) 1 2 0 1 0 1 2 2 devOpen (by decide) (by decide)
        (by decide)
    exact ⟨h1, h2⟩
  · refine p3 cfgAB 1 0 1 3 devOpen 1 (by decide) (by decide) rfl ?_
    intro j hj
    have : j = 0 := by omega
    subst this
    exact ⟨2, rfl⟩

/-- C9: confirmed.  Every emitted row has length `len(connected_channels) + 1`:
one entry per connected channel in registration order followed by exactly one
trailing meter entry.  For each tracked channel the recorded value is the
just-applied setpoint when that channel is actively swept, and otherwise the
channel's held voltage (which is unchanged throughout the run: every ramp
command in the trace targets only swept channels, or is the final all-channel
batch).  Stated for the 1-D sweep and for the 2-D sweep. -/
theorem claim_C9 (cfg : DeviceCfg) (mval : Nat → ℚ)
    (hm : ∀ k, cfg.meter k = Except.ok (mval k)) (s : DevState)
    (hnodup : cfg.connected_channels.Nodup) (hmi : s.meterIdx = 0) :
    (∀ (ch : Chan) (minV maxV : ℚ) (steps : Nat), ch ∈ cfg.connected_channels →
      (∀ i : Nat, i < steps →
        ∃ row, (emittedSamples (dc_1d_gate_sweep cfg ch minV maxV steps s).2.1)[i]?
            = some row ∧
          row.length = cfg.connected_channels.length + 1 ∧
          (∀ j : Nat, ∀ hj : j < cfg.connected_channels.length,
            row[j]? = some (some (ParamId.chanV (cfg.connected_channels[j]),
              if cfg.connected_channels[j] = ch
              then minV + (i : ℚ) * ((maxV - minV) / ((steps : ℚ) - 1))
              else s.volt (cfg.connected_channels[j])))) ∧
          row[cfg.connected_channels.length]? = some (some (ParamId.dmmVolt, mval i))) ∧
      (∀ e ∈ (dc_1d_gate_sweep cfg ch minV maxV steps s).2.1, ∀ chans fs ts d,
        e = Event.rampCall chans fs ts d → chans = [ch] ∨ chans = cfg.connected_channels)) ∧
    (∀ (ch1 ch2 : Chan) (minV1 maxV1 minV2 maxV2 : ℚ) (m n : Nat),
      ch1 ∈ cfg.connected_channels → ch2 ∈ cfg.connected_channels → ch1 ≠ ch2 →
      (∀ i j : Nat, i < m → j < n →
        ∃ row, (emittedSamples
            (dc_2d_gate_sweep cfg ch1 ch2 minV1 maxV1 minV2 maxV2 m n s).2.1)[i * n + j]?
            = some row ∧
          row.length = cfg.connected_channels.length + 1 ∧
          (∀ jx : Nat, ∀ hjx : jx < cfg.connected_channels.length,
            row[jx]? = some (some (ParamId.chanV (cfg.connected_channels[jx]),
              if cfg.connected_channels[jx] = ch1
              then minV1 + (i : ℚ) * ((maxV1 - minV1) / ((m : ℚ) - 1))
              else if cfg.connected_channels[jx] = ch2
              then minV2 + (j : ℚ) * ((maxV2 - minV2) / ((n : ℚ) - 1))
              else s.volt (cfg.connected_channels[jx])))) ∧
          row[cfg.connected_channels.length]?
            = some (some (ParamId.dmmVolt, mval (i * n + j)))) ∧
      (∀ e ∈ (dc_2d_gate_sweep cfg ch1 ch2 minV1 maxV1 minV2 maxV2 m n s).2.1,
        ∀ chans fs ts d, e = Event.rampCall chans fs ts d →
          chans = [ch1] ∨ chans = [ch2] ∨ chans = cfg.connected_channels)) := by
  constructor
  · intro ch minV maxV steps hch
    obtain ⟨_, o2, _, _, o5⟩ := dc_1d_ok cfg mval hm ch minV maxV steps s hch
    have hsi : cfg.connected_channels.indexOf ch < cfg.connected_channels.length :=
      List.indexOf_lt_length.2 hch
    have hreg : (registration s cfg.connected_channels [ch]).2.length
        = cfg.connected_channels.length + 1 := registration_length s _ _
    refine ⟨?_, o5⟩
    intro i hi
    have hvs : i < (linspace minV maxV steps).length := by rw [linspace_length]; exact hi
    have hval : (linspace minV maxV steps)[i]
        = minV + (i : ℚ) * ((maxV - minV) / ((steps : ℚ) - 1)) := by
      have := linspace_getElem minV maxV steps i hi
      rwa [List.getElem?_eq_getElem hvs, Option.some_inj] at this
    refine ⟨sampleAt (registration s cfg.connected_channels [ch]).2
        (cfg.connected_channels.indexOf ch) cfg.connected_channels.length ch
        ((linspace minV maxV steps)[i]) (mval (s.meterIdx + i)), ?_, ?_, ?_, ?_⟩
    · rw [o2]
      exact expected1d_getElem _ _ _ _ _ _ _ i hvs
    · rw [sampleAt_length, hreg]
    · intro j hj
      by_cases hjsi : j = cfg.connected_channels.indexOf ch
      · subst hjsi
        have hc : cfg.connected_channels[cfg.connected_channels.indexOf ch] = ch :=
          List.getElem_indexOf hsi
        rw [sampleAt_get_si _ _ _ _ _ _ (Nat.ne_of_lt hsi) (by rw [hreg]; omega), hval]
        simp only [hc, if_pos rfl, if_true]
      · have hc : cfg.connected_channels[j] ≠ ch := by
          intro hcc
          apply hjsi
          have := List.indexOf_getElem hnodup j hj
          rw [hcc] at this
          omega
        rw [sampleAt_get_other _ _ _ _ _ _ _ hjsi (Nat.ne_of_lt hj),
          registration_base_getElem s _ _ j hj,
          if_neg (by simpa using hc), if_neg hc]
    · rw [sampleAt_get_li _ _ _ _ _ _ (by rw [hreg]; omega), hmi, Nat.zero_add]
  · intro ch1 ch2 minV1 maxV1 minV2 maxV2 m n h1 h2 h12
    obtain ⟨_, o2, _, _, _, _, o7⟩ :=
      dc_2d_ok cfg mval hm ch1 ch2 minV1 maxV1 minV2 maxV2 m n s h1 h2 h12
    have hlt1 : cfg.connected_channels.indexOf ch1 < cfg.connected_channels.length :=
      List.indexOf_lt_length.2 h1
    have hlt2 : cfg.connected_channels.indexOf ch2 < cfg.connected_channels.length :=
      List.indexOf_lt_length.2 h2
    have hc1c2 : cfg.connected_channels.indexOf ch1 ≠ cfg.connected_channels.indexOf ch2 := by
      intro hc
      apply h12
      have e1 := List.getElem_indexOf hlt1
      have e2 := List.getElem_indexOf hlt2
      rw [← e1, ← e2]
      congr 1
    have hreg : (registration s cfg.connected_channels [ch1, ch2]).2.length
        = cfg.connected_channels.length + 1 := registration_length s _ _
    refine ⟨?_, o7⟩
    intro i j hi hj
    have hi1 : i < (linspace minV1 maxV1 m).length := by rw [linspace_length]; exact hi
    have hj2 : j < (linspace minV2 maxV2 n).length := by rw [linspace_length]; exact hj
    have hval1 : (linspace minV1 maxV1 m)[i]
        = minV1 + (i : ℚ) * ((maxV1 - minV1) / ((m : ℚ) - 1)) := by
      have := linspace_getElem minV1 maxV1 m i hi
      rwa [List.getElem?_eq_getElem hi1, Option.some_inj] at this
    have hval2 : (linspace minV2 maxV2 n)[j]
        = minV2 + (j : ℚ) * ((maxV2 - minV2) / ((n : ℚ) - 1)) := by
      have := linspace_getElem minV2 maxV2 n j hj
      rwa [List.getElem?_eq_getElem hj2, Option.some_inj] at this
    refine ⟨sampleAt ((registration s cfg.connected_channels [ch1, ch2]).2.set
        (cfg.connected_channels.indexOf ch1)
        (some (ParamId.chanV ch1, (linspace minV1 maxV1 m)[i])))
        (cfg.connected_channels.indexOf ch2) cfg.connected_channels.length ch2
        ((linspace minV2 maxV2 n)[j]) (mval (s.meterIdx + i * n + j)), ?_, ?_, ?_, ?_⟩
    · rw [o2]
      have := expected2d_getElem (registration s cfg.connected_channels [ch1, ch2]).2
        (cfg.connected_channels.indexOf ch1) (cfg.connected_channels.indexOf ch2)
        cfg.connected_channels.length ch1 ch2 mval (linspace minV2 maxV2 n)
        (linspace minV1 maxV1 m) s.meterIdx i j hi1 hj2
      rw [linspace_length] at this
      exact this
    · rw [sampleAt_length, List.length_set, hreg]
    · intro jx hjx
      by_cases hj1 : jx = cfg.connected_channels.indexOf ch1
      · subst hj1
        have hc : cfg.connected_channels[cfg.connected_channels.indexOf ch1] = ch1 :=
          List.getElem_indexOf hlt1
        rw [sampleAt_get_other _ _ _ _ _ _ _ hc1c2 (Nat.ne_of_lt hlt1),
          List.getElem?_set_eq_of_lt _ (by rw [hreg]; omega), hval1]
        simp only [hc, if_pos rfl, if_true]
      · by_cases hj2x : jx = cfg.connected_channels.indexOf ch2
        · subst hj2x
          have hc : cfg.connected_channels[cfg.connected_channels.indexOf ch2] = ch2 :=
            List.getElem_indexOf hlt2
          have hne12 : cfg.connected_channels[cfg.connected_channels.indexOf ch2] ≠ ch1 := by
            rw [hc]
            exact Ne.symm h12
          rw [sampleAt_get_si _ _ _ _ _ _ (Nat.ne_of_lt hlt2)
              (by rw [List.length_set, hreg]; omega), hval2]
          simp only [hc, if_neg (Ne.symm h12), if_pos rfl, if_true]
        · have hcc1 : cfg.connected_channels[jx] ≠ ch1 := by
            intro hcc
            apply hj1
            have := List.indexOf_getElem hnodup jx hjx
            rw [hcc] at this
            omega
          have hcc2 : cfg.connected_channels[jx] ≠ ch2 := by
            intro hcc
            apply hj2x
            have := List.indexOf_getElem hnodup jx hjx
            rw [hcc] at this
            omega
          rw [sampleAt_get_other _ _ _ _ _ _ _ hj2x (Nat.ne_of_lt hjx),
            List.getElem?_set_ne (Ne.symm hj1),
            registration_base_getElem s _ _ jx hjx,
            if_neg (by simp [hcc1, hcc2]), if_neg hcc1, if_neg hcc2]
    · rw [sampleAt_get_li _ _ _ _ _ _ (by rw [List.length_set, hreg]; omega), hmi,
        Nat.zero_add]

/-- C9 witness: concrete 1-D and 2-D runs: an emitted row exists and has
length `len(connected_channels) + 1` in both sweeps. -/
theorem claim_C9_witness :
    cfgSingle3.connected_channels.Nodup ∧ cfgC.connected_channels.Nodup ∧
    (∃ row, (emittedSamples (dc_1d_gate_sweep cfgSingle3 3 0 1 5 devOpen).2.1)[0]?
        = some row ∧ row.length = cfgSingle3.connected_channels.length + 1) ∧
    (∃ row, (emittedSamples (dc_2d_gate_sweep cfgC 1 2 0 1 0 1 2 2 devOpen).2.1)[1 * 2 + 1]?
        = some row ∧ row.length = cfgC.connected_channels.length + 1) := by
  obtain ⟨p1, p2⟩ := claim_C9 cfgSingle3 (fun _ => 2) (fun _ => rfl) devOpen (by decide) rfl
  obtain ⟨q1, _⟩ := p1 3 0 1 5 (by decide)
  obtain ⟨row, hrow, hlen, _, _⟩ := q1 0 (by decide)
  obtain ⟨p1b, p2b⟩ := claim_C9 cfgC (fun _ => 2) (fun _ => rfl) devOpen (by decide) rfl
  obtain ⟨q2, _⟩ := p2b 1 2 0 1 0 1 2 2 (by decide) (by decide) (by decide)
  obtain ⟨row2, hrow2, hlen2, _, _⟩ := q2 1 1 (by decide) (by decide)
  exact ⟨by decide, by decide, ⟨row, hrow, hlen⟩, ⟨row2, hrow2, hlen2⟩⟩
